import Mathlib

/-!
Verification of the F1 race-analysis pipeline (race_analyzer.py).

This file gives a shallow embedding of the incident-extraction,
telemetry-correlation, position-change, pit-strategy, track-limits,
yellow-flag and segment-ranking logic of `F1RaceAnalyzer`, and proves
the specified properties about it.

Embedding conventions:
- pandas data frames become lists of records; a row lookup
  `df[df.C == v].iloc[0]` becomes `List.find?` (first match), and a
  possibly-raising `.iloc[0]` on an empty selection becomes `Except`;
- float columns that may hold NaN become `Option Rat` (`none` = NaN);
  duration strings (lap / sector times) are carried as the result of the
  `pd.to_timedelta(...).total_seconds()` parse: `Option Rat`, where
  `none` stands for a missing or unparseable duration (the try/except in
  the source becomes a `match` on the option);
- Python substring tests (`x in s`) become `strContains`; the
  case-insensitive `str.contains(pat, case=False)` becomes containment
  after ASCII upper-casing of both sides;
- the free-text anomaly strings become tagged values carrying the same
  numeric payload that the source interpolates into the string.
-/

/-- Containment of `pat` as a contiguous substring of `hay`
(Python `pat in hay`, over explicit character lists). -/
def containsSub (hay pat : List Char) : Bool :=
  match hay with
  | [] => pat.isEmpty
  | _ :: t => pat.isPrefixOf hay || containsSub t pat

/-- Python substring test `pat in hay` on strings. -/
def strContains (hay pat : String) : Bool :=
  containsSub hay.data pat.data

/-- ASCII upper-casing of a character list (models the case folding done by
`str.contains(..., case=False)`; all patterns in the source are ASCII). -/
def upperChars (l : List Char) : List Char :=
  l.map Char.toUpper

/-- Case-insensitive substring containment on strings. -/
def strContainsCI (hay pat : String) : Bool :=
  containsSub (upperChars hay.data) (upperChars pat.data)

/-- Scan for the regex `CAR (\d+)` as `re.findall` does: left to right,
non-overlapping, resuming after each match; each capture is the maximal
digit run following the literal `CAR `. The fuel argument only bounds the
recursion (each step consumes at least one character, so `hay.length`
fuel is always enough) and keeps the definition kernel-reducible. -/
def findCarNumbersFuel : Nat → List Char → List String
  | 0, _ => []
  | _, [] => []
  | fuel + 1, c :: t =>
    if ("CAR ".data).isPrefixOf (c :: t) then
      let rest := (c :: t).drop 4
      let ds := rest.takeWhile Char.isDigit
      if ds.isEmpty then findCarNumbersFuel fuel t
      else String.mk ds :: findCarNumbersFuel fuel (rest.drop ds.length)
    else findCarNumbersFuel fuel t

/-- All captures of `CAR (\d+)` in `hay` (`re.findall`). -/
def findCarNumbers (hay : List Char) : List String :=
  findCarNumbersFuel hay.length hay

/-- Scan for the first match of a regex `TOK(<class>+)` as `re.search` does:
the literal token `tok` followed by a non-empty maximal run of characters
satisfying `good`; returns the captured run of the first match. -/
def searchCapture (tok : List Char) (good : Char → Bool) (hay : List Char) :
    Option String :=
  match hay with
  | [] => none
  | c :: t =>
    if tok.isPrefixOf (c :: t) then
      let ds := ((c :: t).drop tok.length).takeWhile good
      if ds.isEmpty then searchCapture tok good t
      else some (String.mk ds)
    else searchCapture tok good t

/-- Character class `[0-9:\.]` of the deleted-time regex. -/
def isTimeChar (c : Char) : Bool :=
  c.isDigit || c == ':' || c == '.'

/-- Conversion of a captured digit string to an integer (Python `int`). -/
def digitsToInt (s : String) : Int :=
  Int.ofNat (s.data.foldl (fun acc c => acc * 10 + c.toNat - 48) 0)

/-! ## Data model -/

/-- One row of `lap_data` for one driver and lap (see spec section 3,
LapRecord). Float columns that can be NaN and duration columns that can
be missing or unparseable are `Option`-valued. -/
structure LapRecord where
  driver : String
  lapNumber : Int
  position : Option Int
  lapTime : Option Rat
  sector1Time : Option Rat
  sector2Time : Option Rat
  sector3Time : Option Rat
  speedI1 : Option Rat
  speedI2 : Option Rat
  speedFL : Option Rat
  speedST : Option Rat
  compound : String
  tyreLife : Option Int
  isPersonalBest : Bool
  trackStatus : Option Int
  pitIn : Bool
deriving Repr, DecidableEq

/-- One row of `race_control_messages`. -/
structure RaceControlMessage where
  lap : Option Int
  time : String
  message : String
  category : Option String
  sector : Option String
deriving Repr, DecidableEq

/-- One row of `session_results` (the fields the analyzer reads for
driver resolution). -/
structure DriverResult where
  driverNumber : Int
  abbreviation : String
deriving Repr, DecidableEq

/-- The loaded tables of one session that the analyzed functions read. -/
structure Session where
  lapData : List LapRecord
  raceControl : List RaceControlMessage
  sessionResults : List DriverResult
deriving Repr, DecidableEq

/-! ## Incident extraction (`analyze_incidents`, `_get_steward_action`) -/

/-- Keyword set of the incident scan. -/
def incidentKeywords : List String :=
  ["INCIDENT", "CRASH", "COLLISION", "OFF TRACK", "SPIN", "CONTACT"]

/-- Filter predicate of the incident scan:
`Message.str.contains("INCIDENT|CRASH|...", case=False)`. -/
def matchesIncidentKeywords (msg : String) : Bool :=
  incidentKeywords.any (fun kw => strContainsCI msg kw)

/-- Steward-action classification (`_get_steward_action`): substring
checks in a fixed order, first match wins. -/
def getStewardAction (message : String) : String :=
  if strContains message "NO FURTHER ACTION" then "No further action"
  else if strContains message "UNDER INVESTIGATION" then "Under investigation"
  else if strContains message "WILL BE INVESTIGATED" then
    "Will be investigated after race"
  else if strContains message "DELETED" then "Lap time deleted"
  else if strContains message "NOTED" then "Noted"
  else "Unknown"

/-- Driver-abbreviation lookup by car number
(`_get_driver_from_car_number`): first `session_results` row whose
`DriverNumber` equals `int(car_number)`. -/
def getDriverFromCarNumber (results : List DriverResult) (carNumber : String) :
    Option String :=
  (results.find? (fun r => r.driverNumber == digitsToInt carNumber)).map
    (fun r => r.abbreviation)

/-! ## Telemetry correlation windows (`_analyze_incident_telemetry`,
`_analyze_violation_telemetry`) -/

/-- Lap window of the incident correlator: the five laps around the
incident lap, with non-positive lap numbers skipped (`continue` on
`lap_num <= 0`). -/
def incidentWindowLaps (incidentLap : Int) : List Int :=
  [incidentLap - 2, incidentLap - 1, incidentLap, incidentLap + 1,
    incidentLap + 2].filter (fun n => !(n ≤ 0))

/-- Lap window of the track-limits correlator: one lap either side,
non-positive lap numbers skipped. -/
def violationWindowLaps (violationLap : Int) : List Int :=
  [violationLap - 1, violationLap, violationLap + 1].filter (fun n => !(n ≤ 0))

/-- Row lookup `lap_data[(Driver == d) & (LapNumber == n)]` followed by
`.iloc[0]`: the first matching record, if any. -/
def findLap (lapData : List LapRecord) (driver : String) (n : Int) :
    Option LapRecord :=
  lapData.find? (fun r => r.driver == driver && r.lapNumber == n)

/-- Per-lap telemetry dict entry built from a lap record (the
`telemetry_data` dict of `_analyze_incident_telemetry`). The optional
car-channel enrichment (`_get_car_telemetry_data`) adds only disjoint
aggregate keys and is external I/O, so it is not modelled. -/
structure TelemetryEntry where
  lapNumber : Int
  lapTime : Option Rat
  position : Option Int
  sector1Time : Option Rat
  sector2Time : Option Rat
  sector3Time : Option Rat
  speedI1 : Option Rat
  speedI2 : Option Rat
  speedFL : Option Rat
  speedST : Option Rat
  compound : String
  tyreLife : Option Int
  isPersonalBest : Bool
  trackStatus : Option Int
deriving Repr, DecidableEq

/-- Extraction of the per-lap telemetry entry from a lap record
(`TrackStatus` defaults to 1 when NaN, as in the source). -/
def mkTelemetryEntry (n : Int) (r : LapRecord) : TelemetryEntry :=
  { lapNumber := n
    lapTime := r.lapTime
    position := r.position
    sector1Time := r.sector1Time
    sector2Time := r.sector2Time
    sector3Time := r.sector3Time
    speedI1 := r.speedI1
    speedI2 := r.speedI2
    speedFL := r.speedFL
    speedST := r.speedST
    compound := r.compound
    tyreLife := r.tyreLife
    isPersonalBest := r.isPersonalBest
    trackStatus := some (r.trackStatus.getD 1) }

/-- The per-lap map `driver_telemetry` of `_analyze_incident_telemetry`:
for each window lap, the entry for the first matching lap record, laps
with no record simply absent (keyed by lap number, insertion order). -/
def driverTelemetry (lapData : List LapRecord) (driver : String)
    (incidentLap : Int) : List (Int × TelemetryEntry) :=
  (incidentWindowLaps incidentLap).filterMap
    (fun n => (findLap lapData driver n).map (fun r => (n, mkTelemetryEntry n r)))

/-- Assoc-list lookup, mirroring `dict.get(key)` on the per-lap maps. -/
def lookupLap {α : Type} (xs : List (Int × α)) (n : Int) : Option α :=
  (xs.find? (fun p => p.1 == n)).map (fun p => p.2)

/-! ## Pattern analysis (`_analyze_telemetry_patterns`) -/

/-- Maximum of a list, Python `max`: the default is returned only on an
empty list, which every use site guards against. -/
def pyMax {α : Type} [LinearOrder α] (dflt : α) : List α → α
  | [] => dflt
  | x :: t => t.foldl max x

/-- Minimum of a list, Python `min`, with the same guard convention. -/
def pyMin {α : Type} [LinearOrder α] (dflt : α) : List α → α
  | [] => dflt
  | x :: t => t.foldl min x

/-- Anomaly entries of the incident pattern analysis; each carries the
numeric payload that the source interpolates into the anomaly string. -/
inductive PatternAnomaly where
  | speedDrop (drop : Rat)
  | positionDrop (drop : Int)
deriving Repr, DecidableEq

/-- The `speed_analysis` sub-dict (filled only when at least two laps of
the window have a finish-line speed). -/
structure SpeedAnalysis where
  maxSpeed : Rat
  minSpeed : Rat
  speedVariance : Rat
  incidentLapSpeed : Option Rat
deriving Repr, DecidableEq

/-- The `position_analysis` sub-dict; `position_range` is the formatted
pair of the two endpoints stored here as numbers. -/
structure PositionAnalysis where
  minPosition : Int
  maxPosition : Int
  positionChange : Int
  incidentLapPosition : Option Int
deriving Repr, DecidableEq

/-- Result of `_analyze_telemetry_patterns`. The `sector_analysis` and
`tire_analysis` summaries are informational only (no thresholds, not
referenced by any verified property) and are not modelled. -/
structure PatternAnalysis where
  speedAnalysis : Option SpeedAnalysis
  positionAnalysis : Option PositionAnalysis
  anomalies : List PatternAnomaly
deriving Repr, DecidableEq

/-- The finish-line speeds of the window, keyed by lap, in window order
(the `speeds` dict: entries whose `speed_fl` is not `None`). -/
def windowSpeeds (tel : List (Int × TelemetryEntry)) : List (Int × Rat) :=
  tel.filterMap (fun p => p.2.speedFL.map (fun v => (p.1, v)))

/-- The positions of the window, keyed by lap, in window order. -/
def windowPositions (tel : List (Int × TelemetryEntry)) : List (Int × Int) :=
  tel.filterMap (fun p => p.2.position.map (fun v => (p.1, v)))

/-- The `speed_analysis` statistics of the incident correlator (filled
only when at least two window laps carry a finish-line speed). -/
def patternSpeedAnalysis (speeds : List (Int × Rat)) (incidentLap : Int) :
    Option SpeedAnalysis :=
  if 2 ≤ speeds.length then
    some { maxSpeed := pyMax 0 (speeds.map Prod.snd)
           minSpeed := pyMin 0 (speeds.map Prod.snd)
           speedVariance :=
             pyMax 0 (speeds.map Prod.snd) - pyMin 0 (speeds.map Prod.snd)
           incidentLapSpeed := lookupLap speeds incidentLap }
  else none

/-- Speed anomaly of the incident correlator: appended exactly when the
finish-line speed of the lap immediately prior exceeds that of the
incident lap by strictly more than 20 km/h (both laps resolved). -/
def patternSpeedAnomalies (speeds : List (Int × Rat)) (incidentLap : Int) :
    List PatternAnomaly :=
  if 2 ≤ speeds.length then
    match lookupLap speeds incidentLap, lookupLap speeds (incidentLap - 1) with
    | some sNow, some sPrev =>
      if sPrev - sNow > 20 then [.speedDrop (sPrev - sNow)] else []
    | _, _ => []
  else []

/-- The `position_analysis` statistics of the incident correlator. -/
def patternPositionAnalysis (positions : List (Int × Int))
    (incidentLap : Int) : Option PositionAnalysis :=
  if 2 ≤ positions.length then
    some { minPosition := pyMin 0 (positions.map Prod.snd)
           maxPosition := pyMax 0 (positions.map Prod.snd)
           positionChange :=
             pyMax 0 (positions.map Prod.snd) - pyMin 0 (positions.map Prod.snd)
           incidentLapPosition := lookupLap positions incidentLap }
  else none

/-- Position anomaly of the incident correlator: appended exactly when
the position worsened (numerically increased) from the lap immediately
prior to the incident lap. -/
def patternPositionAnomalies (positions : List (Int × Int))
    (incidentLap : Int) : List PatternAnomaly :=
  if 2 ≤ positions.length then
    match lookupLap positions incidentLap,
        lookupLap positions (incidentLap - 1) with
    | some pNow, some pPrev =>
      if pNow - pPrev > 0 then [.positionDrop (pNow - pPrev)] else []
    | _, _ => []
  else []

/-- Embedding of `_analyze_telemetry_patterns`: descriptive statistics
over the windowed finish-line speeds and positions, plus the threshold
anomalies, speed first, then position (append order of the source). -/
def analyzeTelemetryPatterns (tel : List (Int × TelemetryEntry))
    (incidentLap : Int) : PatternAnalysis :=
  { speedAnalysis := patternSpeedAnalysis (windowSpeeds tel) incidentLap
    positionAnalysis :=
      patternPositionAnalysis (windowPositions tel) incidentLap
    anomalies :=
      patternSpeedAnomalies (windowSpeeds tel) incidentLap ++
        patternPositionAnomalies (windowPositions tel) incidentLap }

/-! ## Incident records (`analyze_incidents`) -/

/-- Per-driver value of the `telemetry_analysis` dict of an incident. -/
structure DriverIncidentAnalysis where
  driverNumber : String
  lapData : List (Int × TelemetryEntry)
  analysis : PatternAnalysis
deriving Repr, DecidableEq

/-- Embedding of `_analyze_incident_telemetry`. Python truthiness makes
the guard `if not incident_lap` also drop a (never occurring) lap 0. -/
def analyzeIncidentTelemetry (s : Session) (incidentLap : Option Int)
    (drivers : List String) : List (String × DriverIncidentAnalysis) :=
  match incidentLap with
  | none => []
  | some lap =>
    if lap == 0 then []
    else if drivers.isEmpty then []
    else
      drivers.filterMap (fun dnum =>
        match getDriverFromCarNumber s.sessionResults dnum with
        | none => none
        | some drv =>
          let tel := driverTelemetry s.lapData drv lap
          if tel.isEmpty then none
          else some (drv,
            { driverNumber := dnum
              lapData := tel
              analysis := analyzeTelemetryPatterns tel lap }))

/-- Derived Incident record. -/
structure Incident where
  lap : Option Int
  time : String
  message : String
  category : String
  drivers : List String
  stewardAction : String
  telemetryAnalysis : List (String × DriverIncidentAnalysis)
deriving Repr, DecidableEq

/-- Car numbers named in a message: extracted only when the literal
`CAR` occurs (case-sensitive guard in the source), via `CAR (\d+)`. -/
def extractDrivers (message : String) : List String :=
  if strContains message "CAR" then findCarNumbers message.data else []

/-- Embedding of `analyze_incidents`: one Incident per race-control
message whose text contains an incident keyword case-insensitively, in
source order. -/
def analyzeIncidents (s : Session) : List Incident :=
  (s.raceControl.filter (fun m => matchesIncidentKeywords m.message)).map
    (fun m =>
      let drivers := extractDrivers m.message
      { lap := m.lap
        time := m.time
        message := m.message
        category := m.category.getD "Unknown"
        drivers := drivers
        stewardAction := getStewardAction m.message
        telemetryAnalysis := analyzeIncidentTelemetry s m.lap drivers })

/-! ## Stable sorting

Python `list.sort` is stable; with a key function and `reverse=True` it
is a stable descending sort. We embed it as an insertion sort
parameterized by a strict `before` test: `lt a b = true` means `a` must
be placed strictly before `b`; elements not strictly ordered keep their
input order. -/

/-- Insert `x` into `s` after every element strictly before it. -/
def insertBy {α : Type} (lt : α → α → Bool) (x : α) : List α → List α
  | [] => [x]
  | y :: t => if lt y x then y :: insertBy lt x t else x :: y :: t

/-- Stable insertion sort. -/
def sortBy {α : Type} (lt : α → α → Bool) : List α → List α
  | [] => []
  | x :: t => insertBy lt x (sortBy lt t)

/-! ## Position-change scanner (`analyze_position_changes`,
`_compare_lap_telemetry`) -/

/-- Anomaly entries of the per-change telemetry comparison, with the
numeric payload of the formatted string. -/
inductive CompareAnomaly where
  | lapTimeChange (delta : Rat)
  | speedChange (field : String) (delta : Rat)
  | sectorChange (field : String) (delta : Rat)
deriving Repr, DecidableEq

/-- The `tire_changes` sub-dict of a comparison. -/
structure TireChanges where
  compoundChange : Option (String × String)
  tyreLifeChange : Option Int
deriving Repr, DecidableEq

/-- Result of `_compare_lap_telemetry`: `none` / an absent list entry
means the corresponding delta was omitted (missing value or failed
duration parse — the `except: pass` path). -/
structure TelemetryComparison where
  lapTimeChange : Option Rat
  speedChanges : List (String × Rat)
  sectorChanges : List (String × Rat)
  tireChanges : TireChanges
  anomalies : List CompareAnomaly
deriving Repr, DecidableEq

/-- Lap-time delta and its anomaly (threshold 2.0 s, strict, absolute):
`none` and the empty anomaly list when either duration is missing or
fails to parse (the try/except path of the source). -/
def lapTimeDelta (prevLap currLap : LapRecord) :
    Option Rat × List CompareAnomaly :=
  match prevLap.lapTime, currLap.lapTime with
  | some p, some c =>
    (some (c - p),
      if |c - p| > 2 then [CompareAnomaly.lapTimeChange (c - p)] else [])
  | _, _ => (none, [])

/-- Delta entry of one named field: present exactly when both values
are. -/
def deltaEntry (f : String) (p c : Option Rat) : List (String × Rat) :=
  match p, c with
  | some pv, some cv => [(f, cv - pv)]
  | _, _ => []

/-- Signed deltas of the four speed-trap fields, in field order. -/
def speedDeltas (prevLap currLap : LapRecord) : List (String × Rat) :=
  deltaEntry "SpeedI1" prevLap.speedI1 currLap.speedI1 ++
    deltaEntry "SpeedI2" prevLap.speedI2 currLap.speedI2 ++
    deltaEntry "SpeedFL" prevLap.speedFL currLap.speedFL ++
    deltaEntry "SpeedST" prevLap.speedST currLap.speedST

/-- Signed deltas of the three sector times, in field order; a missing
or unparseable sector duration omits its entry. -/
def sectorDeltas (prevLap currLap : LapRecord) : List (String × Rat) :=
  deltaEntry "Sector1Time" prevLap.sector1Time currLap.sector1Time ++
    deltaEntry "Sector2Time" prevLap.sector2Time currLap.sector2Time ++
    deltaEntry "Sector3Time" prevLap.sector3Time currLap.sector3Time

/-- Embedding of `_compare_lap_telemetry` between the previous and
current lap of one driver. Anomaly thresholds: lap time 2.0 s, any
speed trap 15 km/h, any sector 0.5 s (all strict, on absolute deltas);
anomalies appear in the append order of the source (lap time, speeds in
field order, sectors in field order). -/
def compareLapTelemetry (prevLap currLap : LapRecord) : TelemetryComparison :=
  { lapTimeChange := (lapTimeDelta prevLap currLap).1
    speedChanges := speedDeltas prevLap currLap
    sectorChanges := sectorDeltas prevLap currLap
    tireChanges :=
      { compoundChange :=
          if prevLap.compound ≠ currLap.compound then
            some (prevLap.compound, currLap.compound)
          else none
        tyreLifeChange :=
          match prevLap.tyreLife, currLap.tyreLife with
          | some p, some c => some (c - p)
          | _, _ => none }
    anomalies := (lapTimeDelta prevLap currLap).2 ++
      ((speedDeltas prevLap currLap).filter (fun pc => |pc.2| > 15)).map
        (fun pc => CompareAnomaly.speedChange pc.1 pc.2) ++
      ((sectorDeltas prevLap currLap).filter
          (fun pc => |pc.2| > (1 : Rat) / 2)).map
        (fun pc => CompareAnomaly.sectorChange pc.1 pc.2) }

/-- Derived PositionChange record. The lap-time context fields carry the
parsed durations (display strings in the source). -/
structure PositionChange where
  driver : String
  lap : Int
  fromPosition : Int
  toPosition : Int
  change : Int
  lapTime : Option Rat
  prevLapTime : Option Rat
  compound : String
  tyreLife : Option Int
  telemetryComparison : TelemetryComparison
deriving Repr, DecidableEq

/-- First-occurrence-order deduplication (`pandas.Series.unique`). -/
def uniqueFirst (l : List String) : List String :=
  l.foldl (fun acc d => if acc.contains d then acc else acc ++ [d]) []

/-- Sorting a lap table chronologically (`sort_values("LapNumber")`; lap
numbers are unique per driver, so stability is immaterial here). -/
def sortByLapNumber (l : List LapRecord) : List LapRecord :=
  sortBy (fun a b => decide (a.lapNumber < b.lapNumber)) l

/-- The PositionChange record built from a consecutive pair of lap
records with the two resolved positions. -/
def mkPositionChange (prevLap currLap : LapRecord) (prevPos currPos : Int) :
    PositionChange :=
  { driver := currLap.driver
    lap := currLap.lapNumber
    fromPosition := prevPos
    toPosition := currPos
    change := prevPos - currPos
    lapTime := currLap.lapTime
    prevLapTime := prevLap.lapTime
    compound := currLap.compound
    tyreLife := currLap.tyreLife
    telemetryComparison := compareLapTelemetry prevLap currLap }

/-- Scan of the consecutive record pairs of one driver (laps already
sorted chronologically): report a change when both positions are present
and differ and the absolute change reaches `minChange`. -/
def scanDriverChanges (minChange : Int) (driverLaps : List LapRecord) :
    List PositionChange :=
  (driverLaps.zip driverLaps.tail).filterMap (fun pr =>
    match pr.1.position, pr.2.position with
    | some prevPos, some currPos =>
      if prevPos ≠ currPos ∧ minChange ≤ |prevPos - currPos| then
        some (mkPositionChange pr.1 pr.2 prevPos currPos)
      else none
    | _, _ => none)

/-- The pre-sort list of `analyze_position_changes`: drivers in first
appearance order, and per driver the chronological encounter order. -/
def rawPositionChanges (lapData : List LapRecord) (minChange : Int) :
    List PositionChange :=
  (uniqueFirst (lapData.map (fun r => r.driver))).flatMap
    (fun d =>
      scanDriverChanges minChange
        (sortByLapNumber (lapData.filter (fun r => r.driver == d))))

/-- Strict-before test of the final sort of `analyze_position_changes`:
stable descending by absolute change. -/
def changeBefore (a b : PositionChange) : Bool :=
  decide (|b.change| < |a.change|)

/-- Embedding of `analyze_position_changes`. -/
def analyzePositionChanges (lapData : List LapRecord) (minChange : Int) :
    List PositionChange :=
  sortBy changeBefore (rawPositionChanges lapData minChange)

/-! ## Pit-strategy scanner (`analyze_pit_stop_strategies`)

The adjacent-lap lookups use `.iloc[0]`, which raises `IndexError` on an
empty selection, and `int(...)` on a NaN position, which raises
`ValueError`; both raising paths are modelled with `Except`. -/

/-- One entry of a driver pit-stop strategy. -/
structure PitStop where
  lap : Int
  compound : String
  tyreLife : Option Int
  positionBefore : Option Int
  positionAfter : Option Int
  positionChange : Option Int
deriving Repr, DecidableEq

/-- Lookup `driver_laps[LapNumber == n]["Position"].iloc[0]`: raises on
an empty selection, otherwise the (possibly NaN) position of the first
matching row. -/
def ilocPosition (driverLaps : List LapRecord) (n : Int) :
    Except String (Option Int) :=
  match driverLaps.filter (fun r => r.lapNumber == n) with
  | [] => Except.error "IndexError: index 0 is out of bounds"
  | r :: _ => Except.ok r.position

/-- Python `int(pos) if pos else None` on a looked-up position: `None`
(no adjacent lap referenced) and `0` are falsy and give `None`; NaN is
truthy and `int(NaN)` raises. -/
def intIfTruthy : Option (Option Int) → Except String (Option Int)
  | none => Except.ok none
  | some none => Except.error "ValueError: cannot convert float NaN to integer"
  | some (some p) => Except.ok (if p = 0 then none else some p)

/-- One pit-stop entry: position context from the adjacent lap numbers,
guarded only by the lap-number range (`lap_num > 1`, `lap_num < max`),
not by existence of the adjacent record. -/
def pitStopEntry (driverLaps : List LapRecord) (maxLap : Int)
    (pit : LapRecord) : Except String PitStop := do
  let lapNum := pit.lapNumber
  let posBeforeRaw : Option (Option Int) ←
    if lapNum > 1 then (ilocPosition driverLaps (lapNum - 1)).map some
    else pure none
  let posAfterRaw : Option (Option Int) ←
    if lapNum < maxLap then (ilocPosition driverLaps (lapNum + 1)).map some
    else pure none
  let posBefore ← intIfTruthy posBeforeRaw
  let posAfter ← intIfTruthy posAfterRaw
  pure { lap := lapNum
         compound := pit.compound
         tyreLife := pit.tyreLife
         positionBefore := posBefore
         positionAfter := posAfter
         positionChange :=
           match posBefore, posAfter with
           | some b, some a => some (a - b)
           | _, _ => none }

/-- Strategy of one driver: entries for the laps flagged pit-in, in
chronological order. -/
def driverPitStrategy (lapData : List LapRecord) (driver : String) :
    Except String (List PitStop) :=
  let driverLaps := sortByLapNumber (lapData.filter (fun r => r.driver == driver))
  let maxLap := pyMax 0 (driverLaps.map (fun r => r.lapNumber))
  (driverLaps.filter (fun r => r.pitIn)).mapM (pitStopEntry driverLaps maxLap)

/-- Embedding of `analyze_pit_stop_strategies`: one entry per driver
having at least one pit stop. -/
def analyzePitStopStrategies (lapData : List LapRecord) :
    Except String (List (String × List PitStop)) :=
  (uniqueFirst (lapData.map (fun r => r.driver))).filterMapM (fun d => do
    let pits ← driverPitStrategy lapData d
    pure (if pits.isEmpty then none else some (d, pits)))

/-! ## Track-limits scanner (`analyze_track_limits_violations`,
`_analyze_violation_telemetry`) -/

/-- The `speed_analysis` sub-dict of a violation (no variance field in
the source for this path). -/
structure ViolationSpeedAnalysis where
  maxSpeed : Rat
  minSpeed : Rat
  violationLapSpeed : Option Rat
deriving Repr, DecidableEq

/-- Anomaly entry of the violation analysis, carrying the signed delta
that the source formats into the string. -/
inductive ViolationAnomaly where
  | speedChange (delta : Rat)
deriving Repr, DecidableEq

/-- The `analysis` part of a violation telemetry result. The sector
summary holds the three sector times of the violation lap. -/
structure ViolationAnalysis where
  speedAnalysis : Option ViolationSpeedAnalysis
  sectorAnalysis : Option (Option Rat × Option Rat × Option Rat)
  anomalies : List ViolationAnomaly
deriving Repr, DecidableEq

/-- Result of `_analyze_violation_telemetry`. -/
structure ViolationTelemetry where
  lapData : List (Int × TelemetryEntry)
  analysis : ViolationAnalysis
deriving Repr, DecidableEq

/-- The per-lap map of the violation window (same construction as the
incident window over the narrower ±1 window; entries reuse
`TelemetryEntry` although the source omits `track_status` here). -/
def violationDriverTelemetry (lapData : List LapRecord) (driver : String)
    (violationLap : Int) : List (Int × TelemetryEntry) :=
  (violationWindowLaps violationLap).filterMap
    (fun n => (findLap lapData driver n).map (fun r => (n, mkTelemetryEntry n r)))

/-- The `speed_analysis` statistics of the violation correlator (no
variance field on this path in the source). -/
def violationSpeedStats (speeds : List (Int × Rat)) (violationLap : Int) :
    Option ViolationSpeedAnalysis :=
  if 2 ≤ speeds.length then
    some { maxSpeed := pyMax 0 (speeds.map Prod.snd)
           minSpeed := pyMin 0 (speeds.map Prod.snd)
           violationLapSpeed := lookupLap speeds violationLap }
  else none

/-- Speed anomaly of the violation correlator: appended exactly when the
absolute finish-line speed change between the violation lap and the lap
immediately prior is strictly above 10 km/h (both laps resolved). -/
def violationSpeedAnomalies (speeds : List (Int × Rat)) (violationLap : Int) :
    List ViolationAnomaly :=
  if 2 ≤ speeds.length then
    match lookupLap speeds violationLap, lookupLap speeds (violationLap - 1) with
    | some sNow, some sPrev =>
      if |sNow - sPrev| > 10 then [.speedChange (sNow - sPrev)] else []
    | _, _ => []
  else []

/-- Embedding of `_analyze_violation_telemetry`. -/
def analyzeViolationTelemetry (lapData : List LapRecord) (driver : String)
    (violationLap : Int) : ViolationTelemetry :=
  let tel := violationDriverTelemetry lapData driver violationLap
  { lapData := tel
    analysis :=
      { speedAnalysis := violationSpeedStats (windowSpeeds tel) violationLap
        sectorAnalysis :=
          (lookupLap tel violationLap).map
            (fun e => (e.sector1Time, e.sector2Time, e.sector3Time))
        anomalies := violationSpeedAnomalies (windowSpeeds tel) violationLap } }

/-- Derived TrackLimitsViolation record. -/
structure TrackLimitsViolation where
  lap : Option Int
  time : String
  driverNumber : Option String
  driverAbbreviation : Option String
  deletedTime : Option String
  turn : Option String
  message : String
  telemetryAnalysis : Option ViolationTelemetry
deriving Repr, DecidableEq

/-- Filter of the track-limits scan:
`contains("TRACK LIMITS|DELETED", case=False)`. -/
def matchesTrackLimits (msg : String) : Bool :=
  strContainsCI msg "TRACK LIMITS" || strContainsCI msg "DELETED"

/-- Embedding of `analyze_track_limits_violations`. The correlation runs
only when the violation has a (truthy, hence nonzero) lap number and a
resolvable car number. -/
def analyzeTrackLimitsViolations (s : Session) : List TrackLimitsViolation :=
  (s.raceControl.filter (fun m => matchesTrackLimits m.message)).map (fun m =>
    let driverNumber := searchCapture "CAR ".data Char.isDigit m.message.data
    let telemetry : Option ViolationTelemetry :=
      match m.lap, driverNumber with
      | some lap, some dn =>
        if lap = 0 then none
        else (getDriverFromCarNumber s.sessionResults dn).map
          (fun drv => analyzeViolationTelemetry s.lapData drv lap)
      | _, _ => none
    { lap := m.lap
      time := m.time
      driverNumber := driverNumber
      driverAbbreviation :=
        driverNumber.bind (getDriverFromCarNumber s.sessionResults)
      deletedTime := searchCapture "TIME ".data isTimeChar m.message.data
      turn := searchCapture "TURN ".data Char.isDigit m.message.data
      message := m.message
      telemetryAnalysis := telemetry })

/-! ## Yellow-flag scanner (`analyze_yellow_flags`) -/

/-- Derived yellow-flag record. -/
structure YellowFlag where
  lap : Option Int
  time : String
  message : String
  sector : Option String
deriving Repr, DecidableEq

/-- Embedding of `analyze_yellow_flags`. -/
def analyzeYellowFlags (s : Session) : List YellowFlag :=
  (s.raceControl.filter (fun m => strContainsCI m.message "YELLOW")).map
    (fun m =>
      { lap := m.lap, time := m.time, message := m.message, sector := m.sector })

/-! ## Segment ranker (`identify_commentary_segments`) -/

/-- Category-specific fields of a commentary segment (the spec calls
CommentarySegment a union type over the four categories). -/
inductive SegmentPayload where
  | collision (drivers : List String) (stewardAction : String)
  | positionChange (driver : String) (change : Int)
  | trackLimits (driverNumber : Option String) (turn : Option String)
  | yellowFlag (sector : Option String)
deriving Repr, DecidableEq

/-- Python `str(x)` of an optional lap number (`str(None)` is `None`). -/
def optIntStr : Option Int → String
  | none => "None"
  | some i => toString i

/-- Python format `{i:+d}`. -/
def signedIntStr (i : Int) : String :=
  if 0 ≤ i then "+" ++ toString i else toString i

/-- Derived CommentarySegment record. -/
structure CommentarySegment where
  priority : Int
  type : String
  lap : Option Int
  title : String
  description : String
  dataPoints : List String
  payload : SegmentPayload
deriving Repr, DecidableEq

/-- Priority-1 segments: the collision subset of the incidents, i.e.
those whose message contains the literal (case-sensitive) `COLLISION`. -/
def collisionSegments (s : Session) : List CommentarySegment :=
  ((analyzeIncidents s).filter
      (fun inc => strContains inc.message "COLLISION")).map
    (fun c =>
      { priority := 1
        type := "collision"
        lap := c.lap
        title := "Collision - Lap " ++ optIntStr c.lap
        description := c.message
        dataPoints :=
          ["positions", "lap_times", "steward_investigation", "yellow_flag"]
        payload := SegmentPayload.collision c.drivers c.stewardAction })

/-- Priority-2 segments: the top five position changes of the
`min_change = 5` scan (largest absolute changes first). -/
def positionChangeSegments (s : Session) : List CommentarySegment :=
  ((analyzePositionChanges s.lapData 5).take 5).map (fun c =>
    { priority := 2
      type := "position_change"
      lap := some c.lap
      title := c.driver ++ " - " ++ signedIntStr c.change ++
        " positions (Lap " ++ toString c.lap ++ ")"
      description := c.driver ++ " drops from " ++
        toString c.fromPosition ++ " to " ++ toString c.toPosition
      dataPoints := ["position_change", "lap_times", "tire_compound"]
      payload := SegmentPayload.positionChange c.driver c.change })

/-- Priority-3 segments: all track-limits violations. -/
def trackLimitsSegments (s : Session) : List CommentarySegment :=
  (analyzeTrackLimitsViolations s).map (fun v =>
    { priority := 3
      type := "track_limits"
      lap := v.lap
      title := "Track Limits - Lap " ++ optIntStr v.lap
      description := v.message
      dataPoints := ["steward_decision", "track_limits", "racing_standards"]
      payload := SegmentPayload.trackLimits v.driverNumber v.turn })

/-- Priority-4 segments: all yellow-flag messages. -/
def yellowFlagSegments (s : Session) : List CommentarySegment :=
  (analyzeYellowFlags s).map (fun f =>
    { priority := 4
      type := "yellow_flag"
      lap := f.lap
      title := "Yellow Flag - Lap " ++ optIntStr f.lap
      description := f.message
      dataPoints := ["track_status", "safety_periods", "race_impact"]
      payload := SegmentPayload.yellowFlag f.sector })

/-- The pre-sort segment list of `identify_commentary_segments`, built
category by category in detection order. -/
def buildSegments (s : Session) : List CommentarySegment :=
  collisionSegments s ++ positionChangeSegments s ++
    trackLimitsSegments s ++ yellowFlagSegments s

/-- Strict-before test of the final segment sort: stable ascending by
priority. -/
def priorityBefore (a b : CommentarySegment) : Bool :=
  decide (a.priority < b.priority)

/-- Embedding of `identify_commentary_segments`. -/
def identifyCommentarySegments (s : Session) : List CommentarySegment :=
  sortBy priorityBefore (buildSegments s)

/-! ## Auxiliary definitions for the stated properties -/

/-- Erasure of every duration field of a lap record: the state in which
each lap-time and sector-time value is missing or fails to parse. -/
def eraseDurations (r : LapRecord) : LapRecord :=
  { r with lapTime := none, sector1Time := none,
           sector2Time := none, sector3Time := none }

/-- Core identification of a reported position change, independent of
the telemetry context attached to it. -/
structure PositionChangeCore where
  driver : String
  lap : Int
  fromPosition : Int
  toPosition : Int
  change : Int
deriving Repr, DecidableEq

/-- Projection of a PositionChange to its core. -/
def coreOf (c : PositionChange) : PositionChangeCore :=
  { driver := c.driver, lap := c.lap, fromPosition := c.fromPosition,
    toPosition := c.toPosition, change := c.change }

/-- The descending-absolute-change strict-before test on cores. -/
def coreBefore (a b : PositionChangeCore) : Bool :=
  decide (|b.change| < |a.change|)

/-! ## Concrete example data for the stated scenarios -/

/-- Minimal lap record constructor for the example inputs. -/
def mkLap (d : String) (n : Int) (pos : Option Int) (pit : Bool)
    (sfl : Option Rat) : LapRecord :=
  { driver := d, lapNumber := n, position := pos, lapTime := none,
    sector1Time := none, sector2Time := none, sector3Time := none,
    speedI1 := none, speedI2 := none, speedFL := sfl, speedST := none,
    compound := "SOFT", tyreLife := some 3, isPersonalBest := false,
    trackStatus := some 1, pitIn := pit }

/-- Spec example scenario for the extractor: the collision message of
lap 63. -/
def collisionMessage : RaceControlMessage :=
  { lap := some 63, time := "t0"
    message :=
      "CAR 1 (VER) AND CAR 44 (HAM) COLLISION ON LAP 63 - UNDER INVESTIGATION"
    category := some "Other", sector := none }

/-- Session holding only the example collision message. -/
def collisionSession : Session :=
  { lapData := [], raceControl := [collisionMessage], sessionResults := [] }

/-- Spec example scenario for the position-change scanner: driver PER on
position 5 at lap 9 and position 12 at lap 10. -/
def perLaps : List LapRecord :=
  [mkLap "PER" 9 (some 5) false none, mkLap "PER" 10 (some 12) false none]

/-- Expected record of the PER example. -/
def perChange : PositionChange :=
  { driver := "PER", lap := 10, fromPosition := 5, toPosition := 12,
    change := -7, lapTime := none, prevLapTime := none, compound := "SOFT",
    tyreLife := some 3,
    telemetryComparison :=
      compareLapTelemetry (mkLap "PER" 9 (some 5) false none)
        (mkLap "PER" 10 (some 12) false none) }

/-- Failing input of the pit-strategy scanner: a driver whose recorded
laps are 3 and 5 (lap 4 absent, e.g. a data gap), with a pit-in on
lap 5. The before-lap lookup references the absent lap 4. -/
def pitBugLaps : List LapRecord :=
  [mkLap "VER" 3 (some 5) false none, mkLap "VER" 5 (some 6) true none]

/-- Input showing the track-limits anomaly firing on a speed increase:
the finish-line speed rises from 100 km/h on lap 1 to 115 km/h on the
violation lap 2. -/
def speedRiseLaps : List LapRecord :=
  [mkLap "PER" 1 (some 5) false (some 100),
   mkLap "PER" 2 (some 5) false (some 115)]

/-- Race-control message matching the incident keywords only in mixed
case (`collision`), with no uppercase `COLLISION` substring. -/
def lowercaseCollisionMessage : RaceControlMessage :=
  { lap := some 3, time := "t1", message := "Car 1 collision at turn 3",
    category := none, sector := none }

/-- Session holding only the mixed-case collision message. -/
def lowercaseCollisionSession : Session :=
  { lapData := [], raceControl := [lowercaseCollisionMessage],
    sessionResults := [] }

/-- Session with one (uppercase) collision message and one yellow-flag
message, for the ranking example. -/
def rankSession : Session :=
  { lapData := []
    raceControl :=
      [{ lap := some 7, time := "t2", message := "YELLOW FLAG SECTOR 2",
         category := none, sector := some "2" },
       { lap := some 3, time := "t3",
         message := "CAR 1 AND CAR 44 COLLISION ON LAP 3",
         category := none, sector := none }]
    sessionResults := [] }

/-- The Incident record the extractor produces for
`collisionSession` (no session results are loaded, so the telemetry
correlation resolves no driver). -/
def collisionIncident : Incident :=
  { lap := some 63, time := "t0", message := collisionMessage.message,
    category := "Other", drivers := ["1", "44"],
    stewardAction := "Under investigation", telemetryAnalysis := [] }

/-! # Lemmas about the stable sort -/

theorem mem_insertBy {α : Type} (lt : α → α → Bool) (x : α) (s : List α)
    (z : α) : z ∈ insertBy lt x s ↔ z = x ∨ z ∈ s := by
  induction s with
  | nil => simp [insertBy]
  | cons y t ih =>
    by_cases h : lt y x = true
    · simp only [insertBy, h, if_true, List.mem_cons, ih]
      tauto
    · simp only [insertBy, h, Bool.false_eq_true, if_false, List.mem_cons]

theorem insertBy_perm {α : Type} (lt : α → α → Bool) (x : α) (s : List α) :
    (insertBy lt x s).Perm (x :: s) := by
  induction s with
  | nil => simp [insertBy]
  | cons y t ih =>
    by_cases h : lt y x = true
    · simp only [insertBy, h, if_true]
      exact (ih.cons y).trans (List.Perm.swap x y t)
    · simp only [insertBy, h, Bool.false_eq_true, if_false]
      exact List.Perm.refl _

theorem sortBy_perm {α : Type} (lt : α → α → Bool) (l : List α) :
    (sortBy lt l).Perm l := by
  induction l with
  | nil => simp [sortBy]
  | cons x t ih =>
    exact (insertBy_perm lt x (sortBy lt t)).trans (ih.cons x)

theorem insertBy_pairwise {α : Type} {lt : α → α → Bool}
    (hasymm : ∀ a b, lt a b = true → lt b a = false)
    (htrans : ∀ a b c, lt b a = false → lt c b = false → lt c a = false)
    (x : α) {s : List α} (hs : s.Pairwise (fun a b => lt b a = false)) :
    (insertBy lt x s).Pairwise (fun a b => lt b a = false) := by
  induction s with
  | nil => simp [insertBy]
  | cons y t ih =>
    rcases List.pairwise_cons.mp hs with ⟨hy, ht⟩
    by_cases h : lt y x = true
    · simp only [insertBy, h, if_true]
      refine List.pairwise_cons.mpr ⟨?_, ih ht⟩
      intro z hz
      rcases (mem_insertBy lt x t z).mp hz with rfl | hz
      · exact hasymm y z h
      · exact hy z hz
    · have h' : lt y x = false := by
        cases hxy : lt y x with
        | false => rfl
        | true => exact absurd hxy h
      simp only [insertBy, h, if_false]
      refine List.pairwise_cons.mpr ⟨?_, hs⟩
      intro z hz
      rcases List.mem_cons.mp hz with rfl | hz
      · exact h'
      · exact htrans x y z h' (hy z hz)

theorem sortBy_pairwise {α : Type} {lt : α → α → Bool}
    (hasymm : ∀ a b, lt a b = true → lt b a = false)
    (htrans : ∀ a b c, lt b a = false → lt c b = false → lt c a = false)
    (l : List α) :
    (sortBy lt l).Pairwise (fun a b => lt b a = false) := by
  induction l with
  | nil => simp [sortBy]
  | cons x t ih => exact insertBy_pairwise hasymm htrans x ih

theorem insertBy_filter_pos {α : Type} {lt : α → α → Bool} {p : α → Bool}
    {x : α} (hties : ∀ y, p y = true → lt y x = false) (hx : p x = true)
    (s : List α) : (insertBy lt x s).filter p = x :: s.filter p := by
  induction s with
  | nil => simp [insertBy, hx]
  | cons y t ih =>
    by_cases h : lt y x = true
    · have hy : p y = false := by
        cases hpy : p y with
        | false => rfl
        | true => rw [hties y hpy] at h; exact absurd h (by simp)
      simp only [insertBy, h, if_true, List.filter_cons, hy, if_false, ih]
      simp
    · simp only [insertBy, h, Bool.false_eq_true, if_false, List.filter_cons,
        hx, if_true]

theorem insertBy_filter_neg {α : Type} {lt : α → α → Bool} {p : α → Bool}
    {x : α} (hx : p x = false) (s : List α) :
    (insertBy lt x s).filter p = s.filter p := by
  induction s with
  | nil => simp [insertBy, hx]
  | cons y t ih =>
    by_cases h : lt y x = true
    · simp only [insertBy, h, if_true, List.filter_cons, ih]
    · simp only [insertBy, h, Bool.false_eq_true, if_false, List.filter_cons,
        hx]

theorem sortBy_filter_stable {α : Type} {lt : α → α → Bool} {p : α → Bool}
    (hcomp : ∀ a b, p a = true → p b = true → lt a b = false)
    (l : List α) : (sortBy lt l).filter p = l.filter p := by
  induction l with
  | nil => simp [sortBy]
  | cons x t ih =>
    by_cases hx : p x = true
    · rw [sortBy, insertBy_filter_pos (fun y hy => hcomp y x hy hx) hx, ih,
        List.filter_cons_of_pos hx]
    · have hx' : p x = false := by
        cases hpx : p x with
        | false => rfl
        | true => exact absurd hpx hx
      rw [sortBy, insertBy_filter_neg hx', ih, List.filter_cons_of_neg]
      simp [hx']

theorem insertBy_map {α β : Type} {g : α → β} {lt : α → α → Bool}
    {lt2 : β → β → Bool} (hg : ∀ a b, lt a b = lt2 (g a) (g b)) (x : α)
    (s : List α) :
    (insertBy lt x s).map g = insertBy lt2 (g x) (s.map g) := by
  induction s with
  | nil => simp [insertBy]
  | cons y t ih =>
    by_cases h : lt y x = true
    · simp only [insertBy, h, if_true, List.map_cons, ih]
      rw [← hg y x] at *
      simp [insertBy, h]
    · have h2 : lt2 (g y) (g x) = false := by
        rw [← hg y x]
        cases hxy : lt y x with
        | false => rfl
        | true => exact absurd hxy h
      simp only [insertBy, h, Bool.false_eq_true, h2, if_false, List.map_cons]

theorem sortBy_map {α β : Type} {g : α → β} {lt : α → α → Bool}
    {lt2 : β → β → Bool} (hg : ∀ a b, lt a b = lt2 (g a) (g b))
    (l : List α) : (sortBy lt l).map g = sortBy lt2 (l.map g) := by
  induction l with
  | nil => simp [sortBy]
  | cons x t ih => rw [sortBy, insertBy_map hg, ih, List.map_cons, sortBy]

/-! # Lemmas about list maxima and lookups -/

theorem le_foldl_max {α : Type} [LinearOrder α] (x : α) (l : List α) :
    x ≤ l.foldl max x := by
  induction l generalizing x with
  | nil => exact le_refl x
  | cons y t ih => exact le_trans (le_max_left x y) (ih (max x y))

theorem le_foldl_max_of_mem {α : Type} [LinearOrder α] {v : α} {l : List α}
    (hv : v ∈ l) (x : α) : v ≤ l.foldl max x := by
  induction l generalizing x with
  | nil => cases hv
  | cons y t ih =>
    rcases List.mem_cons.mp hv with rfl | hv
    · exact le_trans (le_max_right x v) (le_foldl_max (max x v) t)
    · exact ih hv (max x y)

theorem foldl_max_mem {α : Type} [LinearOrder α] (x : α) (l : List α) :
    l.foldl max x = x ∨ l.foldl max x ∈ l := by
  induction l generalizing x with
  | nil => exact Or.inl rfl
  | cons y t ih =>
    rcases ih (max x y) with h | h
    · rcases max_choice x y with hm | hm
      · exact Or.inl (by rw [List.foldl_cons, h, hm])
      · exact Or.inr (by rw [List.foldl_cons, h, hm]; exact List.mem_cons_self y t)
    · exact Or.inr (List.mem_cons_of_mem y h)

theorem foldl_min_le {α : Type} [LinearOrder α] (x : α) (l : List α) :
    l.foldl min x ≤ x := by
  induction l generalizing x with
  | nil => exact le_refl x
  | cons y t ih => exact le_trans (ih (min x y)) (min_le_left x y)

theorem foldl_min_le_of_mem {α : Type} [LinearOrder α] {v : α} {l : List α}
    (hv : v ∈ l) (x : α) : l.foldl min x ≤ v := by
  induction l generalizing x with
  | nil => cases hv
  | cons y t ih =>
    rcases List.mem_cons.mp hv with rfl | hv
    · exact le_trans (foldl_min_le (min x v) t) (min_le_right x v)
    · exact ih hv (min x y)

theorem foldl_min_mem {α : Type} [LinearOrder α] (x : α) (l : List α) :
    l.foldl min x = x ∨ l.foldl min x ∈ l := by
  induction l generalizing x with
  | nil => exact Or.inl rfl
  | cons y t ih =>
    rcases ih (min x y) with h | h
    · rcases min_choice x y with hm | hm
      · exact Or.inl (by rw [List.foldl_cons, h, hm])
      · exact Or.inr (by rw [List.foldl_cons, h, hm]; exact List.mem_cons_self y t)
    · exact Or.inr (List.mem_cons_of_mem y h)

theorem pyMax_mem {α : Type} [LinearOrder α] (dflt : α) {l : List α}
    (h : l ≠ []) : pyMax dflt l ∈ l := by
  cases l with
  | nil => exact absurd rfl h
  | cons x t =>
    rcases foldl_max_mem x t with he | he
    · rw [pyMax, he]; exact List.mem_cons_self x t
    · exact List.mem_cons_of_mem x (by rw [pyMax]; exact he)

theorem le_pyMax {α : Type} [LinearOrder α] (dflt : α) {l : List α} {v : α}
    (hv : v ∈ l) : v ≤ pyMax dflt l := by
  cases l with
  | nil => cases hv
  | cons x t =>
    rcases List.mem_cons.mp hv with rfl | hv
    · exact le_foldl_max v t
    · exact le_foldl_max_of_mem hv x

theorem pyMin_mem {α : Type} [LinearOrder α] (dflt : α) {l : List α}
    (h : l ≠ []) : pyMin dflt l ∈ l := by
  cases l with
  | nil => exact absurd rfl h
  | cons x t =>
    rcases foldl_min_mem x t with he | he
    · rw [pyMin, he]; exact List.mem_cons_self x t
    · exact List.mem_cons_of_mem x (by rw [pyMin]; exact he)

theorem pyMin_le {α : Type} [LinearOrder α] (dflt : α) {l : List α} {v : α}
    (hv : v ∈ l) : pyMin dflt l ≤ v := by
  cases l with
  | nil => cases hv
  | cons x t =>
    rcases List.mem_cons.mp hv with rfl | hv
    · exact foldl_min_le v t
    · exact foldl_min_le_of_mem hv x

theorem lookupLap_mem {α : Type} {xs : List (Int × α)} {n : Int} {v : α}
    (h : lookupLap xs n = some v) : (n, v) ∈ xs := by
  unfold lookupLap at h
  cases hf : xs.find? (fun p => p.1 == n) with
  | none => rw [hf] at h; cases h
  | some p =>
    rw [hf] at h
    have hm := List.mem_of_find?_eq_some hf
    have hp := List.find?_some hf
    cases p with
    | mk a b =>
      simp only [Option.map_some', Option.some.injEq] at h
      simp only [beq_iff_eq] at hp
      subst hp
      subst h
      exact hm

theorem two_le_length_of_two_mem {α : Type} {a b : α} {l : List α}
    (ha : a ∈ l) (hb : b ∈ l) (hab : a ≠ b) : 2 ≤ l.length := by
  cases l with
  | nil => cases ha
  | cons x t =>
    cases t with
    | nil =>
      rcases List.mem_singleton.mp ha with rfl
      rcases List.mem_singleton.mp hb with rfl
      exact absurd rfl hab
    | cons y u => simp [List.length_cons]

/-! # Window lemmas -/

theorem mem_incidentWindowLaps {L n : Int} :
    n ∈ incidentWindowLaps L ↔ (1 ≤ n ∧ L - 2 ≤ n ∧ n ≤ L + 2) := by
  simp [incidentWindowLaps]
  omega

theorem mem_violationWindowLaps {L n : Int} :
    n ∈ violationWindowLaps L ↔ (1 ≤ n ∧ L - 1 ≤ n ∧ n ≤ L + 1) := by
  simp [violationWindowLaps]
  omega

theorem mem_telemetryMap {w : List Int} {lapData : List LapRecord}
    {d : String} {n : Int} {e : TelemetryEntry} :
    (n, e) ∈ w.filterMap
        (fun m => (findLap lapData d m).map
          (fun r => (m, mkTelemetryEntry m r))) ↔
      (n ∈ w ∧ ∃ r, findLap lapData d n = some r ∧ mkTelemetryEntry n r = e) := by
  constructor
  · intro h
    obtain ⟨m, hm, hf⟩ := List.mem_filterMap.mp h
    rcases Option.map_eq_some'.mp hf with ⟨r, hr, heq⟩
    have h1 : m = n := congrArg Prod.fst heq
    subst h1
    have h2 : mkTelemetryEntry m r = e := congrArg Prod.snd heq
    exact ⟨hm, r, hr, h2⟩
  · rintro ⟨hw, r, hr, he⟩
    exact List.mem_filterMap.mpr ⟨n, hw, by rw [hr]; simp [he]⟩

/-! # Claim theorems -/

/-- C4: every per-lap entry of the incident telemetry map lies in the
clipped window `[L-2 .. L+2] ∩ {n | 1 ≤ n}` and, conversely, a window
lap appears in the map exactly when the driver has a lap record for it
(absent laps are absent, not zero-filled); the same holds for the ±1
track-limits window; and the window of an incident on lap 1 contains no
lap number below 1. -/
theorem telemetry_window_clipped :
    (∀ (lapData : List LapRecord) (d : String) (L n : Int)
        (e : TelemetryEntry), (n, e) ∈ driverTelemetry lapData d L →
        1 ≤ n ∧ L - 2 ≤ n ∧ n ≤ L + 2) ∧
    (∀ (lapData : List LapRecord) (d : String) (L n : Int),
        (∃ e, (n, e) ∈ driverTelemetry lapData d L) ↔
          (1 ≤ n ∧ L - 2 ≤ n ∧ n ≤ L + 2 ∧
            ∃ r, findLap lapData d n = some r)) ∧
    (∀ (lapData : List LapRecord) (d : String) (L n : Int)
        (e : TelemetryEntry), (n, e) ∈ violationDriverTelemetry lapData d L →
        1 ≤ n ∧ L - 1 ≤ n ∧ n ≤ L + 1) ∧
    (∀ (lapData : List LapRecord) (d : String) (L n : Int),
        (∃ e, (n, e) ∈ violationDriverTelemetry lapData d L) ↔
          (1 ≤ n ∧ L - 1 ≤ n ∧ n ≤ L + 1 ∧
            ∃ r, findLap lapData d n = some r)) ∧
    (∀ n ∈ incidentWindowLaps 1, 1 ≤ n) := by
  have hIncident : ∀ (lapData : List LapRecord) (d : String) (L n : Int),
      (∃ e, (n, e) ∈ driverTelemetry lapData d L) ↔
        (1 ≤ n ∧ L - 2 ≤ n ∧ n ≤ L + 2 ∧
          ∃ r, findLap lapData d n = some r) := by
    intro lapData d L n
    constructor
    · rintro ⟨e, he⟩
      rcases mem_telemetryMap.mp he with ⟨hw, r, hr, _⟩
      rcases mem_incidentWindowLaps.mp hw with ⟨h1, h2, h3⟩
      exact ⟨h1, h2, h3, r, hr⟩
    · rintro ⟨h1, h2, h3, r, hr⟩
      exact ⟨mkTelemetryEntry n r,
        mem_telemetryMap.mpr
          ⟨mem_incidentWindowLaps.mpr ⟨h1, h2, h3⟩, r, hr, rfl⟩⟩
  have hViolation : ∀ (lapData : List LapRecord) (d : String) (L n : Int),
      (∃ e, (n, e) ∈ violationDriverTelemetry lapData d L) ↔
        (1 ≤ n ∧ L - 1 ≤ n ∧ n ≤ L + 1 ∧
          ∃ r, findLap lapData d n = some r) := by
    intro lapData d L n
    constructor
    · rintro ⟨e, he⟩
      rcases mem_telemetryMap.mp he with ⟨hw, r, hr, _⟩
      rcases mem_violationWindowLaps.mp hw with ⟨h1, h2, h3⟩
      exact ⟨h1, h2, h3, r, hr⟩
    · rintro ⟨h1, h2, h3, r, hr⟩
      exact ⟨mkTelemetryEntry n r,
        mem_telemetryMap.mpr
          ⟨mem_violationWindowLaps.mpr ⟨h1, h2, h3⟩, r, hr, rfl⟩⟩
  refine ⟨?_, hIncident, ?_, hViolation, ?_⟩
  · intro lapData d L n e he
    rcases (hIncident lapData d L n).mp ⟨e, he⟩ with ⟨h1, h2, h3, _⟩
    exact ⟨h1, h2, h3⟩
  · intro lapData d L n e he
    rcases (hViolation lapData d L n).mp ⟨e, he⟩ with ⟨h1, h2, h3, _⟩
    exact ⟨h1, h2, h3⟩
  · intro n hn
    exact (mem_incidentWindowLaps.mp hn).1

/-- Witness for C4: a concrete entry of the telemetry map of an
incident on lap 9 of the example lap table satisfies the window bounds. -/
theorem telemetry_window_clipped_witness :
    (9, mkTelemetryEntry 9 (mkLap "PER" 9 (some 5) false none)) ∈
      driverTelemetry perLaps "PER" 9 ∧
    (1 ≤ (9 : Int) ∧ (9 : Int) - 2 ≤ (9 : Int) ∧ (9 : Int) ≤ (9 : Int) + 2) :=
  ⟨by decide, telemetry_window_clipped.1 perLaps "PER" 9 9
    (mkTelemetryEntry 9 (mkLap "PER" 9 (some 5) false none)) (by decide)⟩

/-- C3: the steward action is classified by substring precedence in the
exact order NO FURTHER ACTION, UNDER INVESTIGATION, WILL BE
INVESTIGATED, DELETED, NOTED — first match wins, otherwise unknown — and
the example collision message of lap 63 yields exactly one Incident with
lap 63, drivers 1 and 44, and the under-investigation action. -/
theorem steward_action_precedence :
    (∀ msg : String,
      (strContains msg "NO FURTHER ACTION" = true →
        getStewardAction msg = "No further action") ∧
      (strContains msg "NO FURTHER ACTION" = false →
        strContains msg "UNDER INVESTIGATION" = true →
        getStewardAction msg = "Under investigation") ∧
      (strContains msg "NO FURTHER ACTION" = false →
        strContains msg "UNDER INVESTIGATION" = false →
        strContains msg "WILL BE INVESTIGATED" = true →
        getStewardAction msg = "Will be investigated after race") ∧
      (strContains msg "NO FURTHER ACTION" = false →
        strContains msg "UNDER INVESTIGATION" = false →
        strContains msg "WILL BE INVESTIGATED" = false →
        strContains msg "DELETED" = true →
        getStewardAction msg = "Lap time deleted") ∧
      (strContains msg "NO FURTHER ACTION" = false →
        strContains msg "UNDER INVESTIGATION" = false →
        strContains msg "WILL BE INVESTIGATED" = false →
        strContains msg "DELETED" = false →
        strContains msg "NOTED" = true →
        getStewardAction msg = "Noted") ∧
      (strContains msg "NO FURTHER ACTION" = false →
        strContains msg "UNDER INVESTIGATION" = false →
        strContains msg "WILL BE INVESTIGATED" = false →
        strContains msg "DELETED" = false →
        strContains msg "NOTED" = false →
        getStewardAction msg = "Unknown")) ∧
    (analyzeIncidents collisionSession).map
        (fun i => (i.lap, i.drivers, i.stewardAction)) =
      [(some 63, ["1", "44"], "Under investigation")] := by
  refine ⟨fun msg => ⟨?_, ?_, ?_, ?_, ?_, ?_⟩, by decide⟩
  · intro h1
    simp [getStewardAction, h1]
  · intro h1 h2
    simp [getStewardAction, h1, h2]
  · intro h1 h2 h3
    simp [getStewardAction, h1, h2, h3]
  · intro h1 h2 h3 h4
    simp [getStewardAction, h1, h2, h3, h4]
  · intro h1 h2 h3 h4 h5
    simp [getStewardAction, h1, h2, h3, h4, h5]
  · intro h1 h2 h3 h4 h5
    simp [getStewardAction, h1, h2, h3, h4, h5]

/-- Witness for C3: the precedence applied to a message holding both
DELETED and NOTED classifies it by the earlier DELETED check. -/
theorem steward_action_precedence_witness :
    getStewardAction "LAP TIME DELETED AND NOTED" = "Lap time deleted" :=
  (steward_action_precedence.1 "LAP TIME DELETED AND NOTED").2.2.2.1
    (by decide) (by decide) (by decide) (by decide)

/-- C7: the pit-strategy scanner raises instead of degrading when an
adjacent lap number inside the guard range is absent from the driver lap
set: with recorded laps 3 and 5 and a pit-in on lap 5, the lookup of
lap 4 hits `.iloc[0]` on an empty selection and the whole scan errors. -/
theorem pit_strategy_crashes_on_missing_adjacent_lap :
    analyzePitStopStrategies pitBugLaps =
      Except.error "IndexError: index 0 is out of bounds" := rfl

/-- C8: every Incident the extractor returns comes from a message whose
text contains one of the fixed keywords case-insensitively, and the
extractor returns exactly one Incident per matching race-control
message, in source order. -/
theorem incidents_match_keywords_in_order (s : Session) :
    (∀ inc ∈ analyzeIncidents s, ∃ kw ∈ incidentKeywords,
        strContainsCI inc.message kw = true) ∧
    (analyzeIncidents s).map (fun i => i.message) =
      (s.raceControl.filter
          (fun m => matchesIncidentKeywords m.message)).map
        (fun m => m.message) := by
  constructor
  · intro inc hinc
    obtain ⟨m, hm, hmk⟩ := List.mem_map.mp hinc
    have hmatch : matchesIncidentKeywords m.message = true :=
      (List.mem_filter.mp hm).2
    obtain ⟨kw, hkw, hc⟩ := List.any_eq_true.mp hmatch
    have hmsg : inc.message = m.message := by rw [← hmk]
    exact ⟨kw, hkw, by rw [hmsg]; exact hc⟩
  · rw [analyzeIncidents, List.map_map]
    rfl

/-- Witness for C8: the lap-63 collision incident of the example session
contains a keyword case-insensitively. -/
theorem incidents_match_keywords_in_order_witness :
    collisionIncident ∈ analyzeIncidents collisionSession ∧
    ∃ kw ∈ incidentKeywords,
      strContainsCI collisionIncident.message kw = true :=
  ⟨by decide,
    (incidents_match_keywords_in_order collisionSession).1
      collisionIncident (by decide)⟩

/-- C6 counterexample: on an input whose finish-line speed rises by
15 km/h into the violation lap, the speed drop from the prior lap does
not exceed 10 km/h, yet the violation correlator flags an anomaly — so
the anomaly is not flagged exactly on a speed drop above 10 km/h. -/
theorem violation_anomaly_counterexample :
    ViolationAnomaly.speedChange 15 ∈
      (analyzeViolationTelemetry speedRiseLaps "PER" 2).analysis.anomalies ∧
    lookupLap (windowSpeeds (violationDriverTelemetry speedRiseLaps "PER" 2))
        2 = some 115 ∧
    lookupLap (windowSpeeds (violationDriverTelemetry speedRiseLaps "PER" 2))
        1 = some 100 ∧
    ¬(10 < (100 : Rat) - 115) := by
  have hs : windowSpeeds (violationDriverTelemetry speedRiseLaps "PER" 2) =
      [(1, (100 : Rat)), (2, 115)] := by decide
  refine ⟨?_, by decide, by decide, by norm_num⟩
  show ViolationAnomaly.speedChange 15 ∈
    violationSpeedAnomalies
      (windowSpeeds (violationDriverTelemetry speedRiseLaps "PER" 2)) 2
  rw [hs, violationSpeedAnomalies.eq_def, if_pos (by decide),
    show lookupLap [(1, (100 : Rat)), (2, 115)] 2 = some 115 from by decide,
    show lookupLap [(1, (100 : Rat)), (2, 115)] (2 - 1) = some 100 from by
      decide]
  show ViolationAnomaly.speedChange 15 ∈
    if |(115 : Rat) - 100| > 10
    then [ViolationAnomaly.speedChange ((115 : Rat) - 100)] else []
  rw [if_pos (by norm_num)]
  have h15 : (115 : Rat) - 100 = 15 := by norm_num
  rw [h15]
  exact List.mem_singleton_self _

/-- C6 (amended): for every resolved track-limits violation the ±1-lap
correlation flags a speed anomaly exactly when the ABSOLUTE finish-line
speed change between the violation lap and the lap immediately prior
exceeds 10 km/h (the incident correlator, by contrast, tests the signed
drop); the anomaly list of the violation analysis is exactly this check,
and every attached violation telemetry result comes from this
correlator. -/
theorem violation_anomaly_iff_abs_change :
    (∀ (speeds : List (Int × Rat)) (L : Int),
      (∃ delta, ViolationAnomaly.speedChange delta ∈
          violationSpeedAnomalies speeds L) ↔
        (∃ sNow sPrev, lookupLap speeds L = some sNow ∧
          lookupLap speeds (L - 1) = some sPrev ∧ 10 < |sNow - sPrev|)) ∧
    (∀ (lapData : List LapRecord) (d : String) (L : Int),
      (analyzeViolationTelemetry lapData d L).analysis.anomalies =
        violationSpeedAnomalies
          (windowSpeeds (violationDriverTelemetry lapData d L)) L) ∧
    (∀ (s : Session) (v : TrackLimitsViolation),
      v ∈ analyzeTrackLimitsViolations s → ∀ vt,
        v.telemetryAnalysis = some vt →
        ∃ drv L, v.lap = some L ∧
          vt = analyzeViolationTelemetry s.lapData drv L) := by
  refine ⟨?_, fun lapData d L => rfl, ?_⟩
  · intro speeds L
    constructor
    · rintro ⟨delta, hd⟩
      unfold violationSpeedAnomalies at hd
      by_cases hlen : 2 ≤ speeds.length
      · rw [if_pos hlen] at hd
        cases hNow : lookupLap speeds L with
        | none => rw [hNow] at hd; simp at hd
        | some sNow =>
          cases hPrev : lookupLap speeds (L - 1) with
          | none => rw [hNow, hPrev] at hd; simp at hd
          | some sPrev =>
            by_cases habs : |sNow - sPrev| > 10
            · exact ⟨sNow, sPrev, rfl, rfl, habs⟩
            · rw [hNow, hPrev] at hd
              simp [habs] at hd
      · rw [if_neg hlen] at hd
        simp at hd
    · rintro ⟨sNow, sPrev, hNow, hPrev, habs⟩
      have hmem1 := lookupLap_mem hNow
      have hmem2 := lookupLap_mem hPrev
      have hne : (L, sNow) ≠ (L - 1, sPrev) := by
        intro h
        have hL : L = L - 1 := congrArg Prod.fst h
        omega
      have hlen := two_le_length_of_two_mem hmem1 hmem2 hne
      refine ⟨sNow - sPrev, ?_⟩
      unfold violationSpeedAnomalies
      rw [if_pos hlen, hNow, hPrev]
      show ViolationAnomaly.speedChange (sNow - sPrev) ∈
        if |sNow - sPrev| > 10
        then [ViolationAnomaly.speedChange (sNow - sPrev)] else []
      rw [if_pos habs]
      exact List.mem_singleton_self _
  · intro s v hv vt hvt
    obtain ⟨m, _, rfl⟩ := List.mem_map.mp hv
    dsimp only at hvt ⊢
    cases hlap : m.lap with
    | none => rw [hlap] at hvt; simp at hvt
    | some lap =>
      rw [hlap] at hvt
      cases hdn : searchCapture "CAR ".data Char.isDigit m.message.data with
      | none => rw [hdn] at hvt; simp at hvt
      | some dn =>
        rw [hdn] at hvt
        have hvt2 : (if lap = 0 then none
            else Option.map
              (fun drv => analyzeViolationTelemetry s.lapData drv lap)
              (getDriverFromCarNumber s.sessionResults dn)) = some vt := hvt
        by_cases h0 : lap = 0
        · rw [if_pos h0] at hvt2
          simp at hvt2
        · rw [if_neg h0] at hvt2
          obtain ⟨drv, _, hmap⟩ := Option.map_eq_some'.mp hvt2
          exact ⟨drv, lap, rfl, hmap.symm⟩

/-- Witness for C6 (amended): on the rising-speed input the absolute
change of 15 km/h makes the anomaly fire. -/
theorem violation_anomaly_iff_abs_change_witness :
    ∃ delta, ViolationAnomaly.speedChange delta ∈
      violationSpeedAnomalies [(1, (100 : Rat)), (2, 115)] 2 :=
  (violation_anomaly_iff_abs_change.1 [(1, (100 : Rat)), (2, 115)] 2).mpr
    ⟨115, 100, by decide, by decide, by norm_num⟩

/-- C10: priority-1 (collision) segments are emitted only for messages
containing the uppercase substring COLLISION, while the incident
extractor matches its keywords case-insensitively: every priority-1
segment description contains the literal COLLISION, every
keyword-matching message still yields an Incident, and the mixed-case
example message yields an incident but no priority-1 segment. -/
theorem collision_segments_case_sensitive :
    (∀ (s : Session) (seg : CommentarySegment),
      seg ∈ identifyCommentarySegments s → seg.priority = 1 →
        strContains seg.description "COLLISION" = true) ∧
    (∀ (s : Session) (m : RaceControlMessage), m ∈ s.raceControl →
      matchesIncidentKeywords m.message = true →
        ∃ inc ∈ analyzeIncidents s, inc.message = m.message) ∧
    ((analyzeIncidents lowercaseCollisionSession).length = 1 ∧
      (identifyCommentarySegments lowercaseCollisionSession).filter
          (fun g => g.priority == 1) = []) := by
  refine ⟨?_, ?_, by decide, by decide⟩
  · intro s seg hseg hpri
    have hmem : seg ∈ buildSegments s :=
      ((sortBy_perm priorityBefore (buildSegments s)).mem_iff).mp hseg
    rcases List.mem_append.mp hmem with hmem' | hy
    rcases List.mem_append.mp hmem' with hmem'' | ht
    rcases List.mem_append.mp hmem'' with hc | hp
    · obtain ⟨inc, hinc, rfl⟩ := List.mem_map.mp hc
      have : strContains inc.message "COLLISION" = true :=
        (List.mem_filter.mp hinc).2
      exact this
    · obtain ⟨c, _, rfl⟩ := List.mem_map.mp hp
      simp at hpri
    · obtain ⟨c, _, rfl⟩ := List.mem_map.mp ht
      simp at hpri
    · obtain ⟨c, _, rfl⟩ := List.mem_map.mp hy
      simp at hpri
  · intro s m hm hmatch
    refine ⟨_, List.mem_map_of_mem _ (List.mem_filter.mpr ⟨hm, hmatch⟩), rfl⟩

/-- Witness for C10: the mixed-case collision message yields an
Incident with the same message text. -/
theorem collision_segments_case_sensitive_witness :
    ∃ inc ∈ analyzeIncidents lowercaseCollisionSession,
      inc.message = lowercaseCollisionMessage.message :=
  collision_segments_case_sensitive.2.1 lowercaseCollisionSession
    lowercaseCollisionMessage (by decide) (by decide)

theorem speedDrop_not_mem_positionAnomalies (positions : List (Int × Int))
    (L : Int) (d : Rat) :
    PatternAnomaly.speedDrop d ∉ patternPositionAnomalies positions L := by
  intro hd
  unfold patternPositionAnomalies at hd
  by_cases hlen : 2 ≤ positions.length
  · rw [if_pos hlen] at hd
    cases hNow : lookupLap positions L with
    | none => rw [hNow] at hd; simp at hd
    | some pNow =>
      cases hPrev : lookupLap positions (L - 1) with
      | none => rw [hNow, hPrev] at hd; simp at hd
      | some pPrev =>
        rw [hNow, hPrev] at hd
        have hd2 : PatternAnomaly.speedDrop d ∈
            (if pNow - pPrev > 0
              then [PatternAnomaly.positionDrop (pNow - pPrev)] else []) := hd
        by_cases hgt : pNow - pPrev > 0
        · rw [if_pos hgt] at hd2
          simp at hd2
        · rw [if_neg hgt] at hd2
          simp at hd2
  · rw [if_neg hlen] at hd
    simp at hd

theorem positionDrop_not_mem_speedAnomalies (speeds : List (Int × Rat))
    (L : Int) (d : Int) :
    PatternAnomaly.positionDrop d ∉ patternSpeedAnomalies speeds L := by
  intro hd
  unfold patternSpeedAnomalies at hd
  by_cases hlen : 2 ≤ speeds.length
  · rw [if_pos hlen] at hd
    cases hNow : lookupLap speeds L with
    | none => rw [hNow] at hd; simp at hd
    | some sNow =>
      cases hPrev : lookupLap speeds (L - 1) with
      | none => rw [hNow, hPrev] at hd; simp at hd
      | some sPrev =>
        rw [hNow, hPrev] at hd
        have hd2 : PatternAnomaly.positionDrop d ∈
            (if sPrev - sNow > 20
              then [PatternAnomaly.speedDrop (sPrev - sNow)] else []) := hd
        by_cases hgt : sPrev - sNow > 20
        · rw [if_pos hgt] at hd2
          simp at hd2
        · rw [if_neg hgt] at hd2
          simp at hd2
  · rw [if_neg hlen] at hd
    simp at hd

theorem patternSpeedAnomalies_spec (speeds : List (Int × Rat)) (L : Int) :
    (∃ d, PatternAnomaly.speedDrop d ∈ patternSpeedAnomalies speeds L) ↔
      (∃ sNow sPrev, lookupLap speeds L = some sNow ∧
        lookupLap speeds (L - 1) = some sPrev ∧ 20 < sPrev - sNow) := by
  constructor
  · rintro ⟨d, hd⟩
    unfold patternSpeedAnomalies at hd
    by_cases hlen : 2 ≤ speeds.length
    · rw [if_pos hlen] at hd
      cases hNow : lookupLap speeds L with
      | none => rw [hNow] at hd; simp at hd
      | some sNow =>
        cases hPrev : lookupLap speeds (L - 1) with
        | none => rw [hNow, hPrev] at hd; simp at hd
        | some sPrev =>
          by_cases hgt : sPrev - sNow > 20
          · exact ⟨sNow, sPrev, rfl, rfl, hgt⟩
          · rw [hNow, hPrev] at hd
            have hd2 : PatternAnomaly.speedDrop d ∈
                (if sPrev - sNow > 20
                  then [PatternAnomaly.speedDrop (sPrev - sNow)] else []) := hd
            rw [if_neg hgt] at hd2
            simp at hd2
    · rw [if_neg hlen] at hd
      simp at hd
  · rintro ⟨sNow, sPrev, hNow, hPrev, hgt⟩
    have hmem1 := lookupLap_mem hNow
    have hmem2 := lookupLap_mem hPrev
    have hne : (L, sNow) ≠ (L - 1, sPrev) := by
      intro h
      have hL : L = L - 1 := congrArg Prod.fst h
      omega
    have hlen := two_le_length_of_two_mem hmem1 hmem2 hne
    refine ⟨sPrev - sNow, ?_⟩
    unfold patternSpeedAnomalies
    rw [if_pos hlen, hNow, hPrev]
    show PatternAnomaly.speedDrop (sPrev - sNow) ∈
      if sPrev - sNow > 20 then [PatternAnomaly.speedDrop (sPrev - sNow)]
      else []
    rw [if_pos hgt]
    exact List.mem_singleton_self _

theorem patternPositionAnomalies_spec (positions : List (Int × Int))
    (L : Int) :
    (∃ d, PatternAnomaly.positionDrop d ∈
        patternPositionAnomalies positions L) ↔
      (∃ pNow pPrev, lookupLap positions L = some pNow ∧
        lookupLap positions (L - 1) = some pPrev ∧ 0 < pNow - pPrev) := by
  constructor
  · rintro ⟨d, hd⟩
    unfold patternPositionAnomalies at hd
    by_cases hlen : 2 ≤ positions.length
    · rw [if_pos hlen] at hd
      cases hNow : lookupLap positions L with
      | none => rw [hNow] at hd; simp at hd
      | some pNow =>
        cases hPrev : lookupLap positions (L - 1) with
        | none => rw [hNow, hPrev] at hd; simp at hd
        | some pPrev =>
          by_cases hgt : pNow - pPrev > 0
          · exact ⟨pNow, pPrev, rfl, rfl, hgt⟩
          · rw [hNow, hPrev] at hd
            have hd2 : PatternAnomaly.positionDrop d ∈
                (if pNow - pPrev > 0
                  then [PatternAnomaly.positionDrop (pNow - pPrev)] else [])
              := hd
            rw [if_neg hgt] at hd2
            simp at hd2
    · rw [if_neg hlen] at hd
      simp at hd
  · rintro ⟨pNow, pPrev, hNow, hPrev, hgt⟩
    have hmem1 := lookupLap_mem hNow
    have hmem2 := lookupLap_mem hPrev
    have hne : (L, pNow) ≠ (L - 1, pPrev) := by
      intro h
      have hL : L = L - 1 := congrArg Prod.fst h
      omega
    have hlen := two_le_length_of_two_mem hmem1 hmem2 hne
    refine ⟨pNow - pPrev, ?_⟩
    unfold patternPositionAnomalies
    rw [if_pos hlen, hNow, hPrev]
    show PatternAnomaly.positionDrop (pNow - pPrev) ∈
      if pNow - pPrev > 0 then [PatternAnomaly.positionDrop (pNow - pPrev)]
      else []
    rw [if_pos hgt]
    exact List.mem_singleton_self _

/-- C5: with at least two resolvable finish-line speeds in the incident
window, the speed statistics are the maximum, the minimum, their
difference as variance, and the value at the incident lap; and an
anomaly is appended exactly when the speed drop from the immediately
prior lap to the incident lap strictly exceeds 20 km/h, or the position
strictly worsens (numerically increases) over those laps. -/
theorem incident_speed_stats_and_anomalies
    (tel : List (Int × TelemetryEntry)) (L : Int)
    (h2 : 2 ≤ (windowSpeeds tel).length) :
    (∃ sa, (analyzeTelemetryPatterns tel L).speedAnalysis = some sa ∧
      sa.maxSpeed ∈ (windowSpeeds tel).map Prod.snd ∧
      (∀ v ∈ (windowSpeeds tel).map Prod.snd, v ≤ sa.maxSpeed) ∧
      sa.minSpeed ∈ (windowSpeeds tel).map Prod.snd ∧
      (∀ v ∈ (windowSpeeds tel).map Prod.snd, sa.minSpeed ≤ v) ∧
      sa.speedVariance = sa.maxSpeed - sa.minSpeed ∧
      sa.incidentLapSpeed = lookupLap (windowSpeeds tel) L) ∧
    ((∃ d, PatternAnomaly.speedDrop d ∈
        (analyzeTelemetryPatterns tel L).anomalies) ↔
      (∃ sNow sPrev, lookupLap (windowSpeeds tel) L = some sNow ∧
        lookupLap (windowSpeeds tel) (L - 1) = some sPrev ∧
        20 < sPrev - sNow)) ∧
    ((∃ d, PatternAnomaly.positionDrop d ∈
        (analyzeTelemetryPatterns tel L).anomalies) ↔
      (∃ pNow pPrev, lookupLap (windowPositions tel) L = some pNow ∧
        lookupLap (windowPositions tel) (L - 1) = some pPrev ∧
        0 < pNow - pPrev)) := by
  have hanom : (analyzeTelemetryPatterns tel L).anomalies =
      patternSpeedAnomalies (windowSpeeds tel) L ++
        patternPositionAnomalies (windowPositions tel) L := rfl
  have hnil : (windowSpeeds tel).map Prod.snd ≠ [] := by
    intro h
    rw [List.map_eq_nil_iff, ← List.length_eq_zero] at h
    omega
  refine ⟨?_, ?_, ?_⟩
  · refine ⟨{ maxSpeed := pyMax 0 ((windowSpeeds tel).map Prod.snd)
              minSpeed := pyMin 0 ((windowSpeeds tel).map Prod.snd)
              speedVariance := pyMax 0 ((windowSpeeds tel).map Prod.snd) -
                pyMin 0 ((windowSpeeds tel).map Prod.snd)
              incidentLapSpeed := lookupLap (windowSpeeds tel) L }, ?_,
      pyMax_mem 0 hnil, fun v hv => le_pyMax 0 hv, pyMin_mem 0 hnil,
      fun v hv => pyMin_le 0 hv, rfl, rfl⟩
    show patternSpeedAnalysis (windowSpeeds tel) L = _
    rw [patternSpeedAnalysis, if_pos h2]
  · rw [hanom]
    constructor
    · rintro ⟨d, hd⟩
      rcases List.mem_append.mp hd with hd' | hd'
      · exact (patternSpeedAnomalies_spec (windowSpeeds tel) L).mp ⟨d, hd'⟩
      · exact absurd hd'
          (speedDrop_not_mem_positionAnomalies (windowPositions tel) L d)
    · intro hrhs
      obtain ⟨d, hd⟩ :=
        (patternSpeedAnomalies_spec (windowSpeeds tel) L).mpr hrhs
      exact ⟨d, List.mem_append.mpr (Or.inl hd)⟩
  · rw [hanom]
    constructor
    · rintro ⟨d, hd⟩
      rcases List.mem_append.mp hd with hd' | hd'
      · exact absurd hd'
          (positionDrop_not_mem_speedAnomalies (windowSpeeds tel) L d)
      · exact (patternPositionAnomalies_spec (windowPositions tel) L).mp
          ⟨d, hd'⟩
    · intro hrhs
      obtain ⟨d, hd⟩ :=
        (patternPositionAnomalies_spec (windowPositions tel) L).mpr hrhs
      exact ⟨d, List.mem_append.mpr (Or.inr hd)⟩

/-- Witness for C5: the speed statistics of a concrete two-lap window. -/
theorem incident_speed_stats_and_anomalies_witness :
    2 ≤ (windowSpeeds (driverTelemetry speedRiseLaps "PER" 2)).length ∧
    ∃ sa, (analyzeTelemetryPatterns
        (driverTelemetry speedRiseLaps "PER" 2) 2).speedAnalysis = some sa ∧
      sa.speedVariance = sa.maxSpeed - sa.minSpeed :=
  ⟨by decide, by
    obtain ⟨⟨sa, hsa, _, _, _, _, hvar, _⟩, _, _⟩ :=
      incident_speed_stats_and_anomalies
        (driverTelemetry speedRiseLaps "PER" 2) 2 (by decide)
    exact ⟨sa, hsa, hvar⟩⟩

theorem collisionSegments_fields (s : Session) :
    ∀ g ∈ collisionSegments s, g.priority = 1 ∧ g.type = "collision" := by
  intro g hg
  obtain ⟨c, _, rfl⟩ := List.mem_map.mp hg
  exact ⟨rfl, rfl⟩

theorem positionChangeSegments_fields (s : Session) :
    ∀ g ∈ positionChangeSegments s,
      g.priority = 2 ∧ g.type = "position_change" := by
  intro g hg
  obtain ⟨c, _, rfl⟩ := List.mem_map.mp hg
  exact ⟨rfl, rfl⟩

theorem trackLimitsSegments_fields (s : Session) :
    ∀ g ∈ trackLimitsSegments s, g.priority = 3 ∧ g.type = "track_limits" := by
  intro g hg
  obtain ⟨c, _, rfl⟩ := List.mem_map.mp hg
  exact ⟨rfl, rfl⟩

theorem yellowFlagSegments_fields (s : Session) :
    ∀ g ∈ yellowFlagSegments s, g.priority = 4 ∧ g.type = "yellow_flag" := by
  intro g hg
  obtain ⟨c, _, rfl⟩ := List.mem_map.mp hg
  exact ⟨rfl, rfl⟩

theorem buildSegments_priority_filter (s : Session) :
    (buildSegments s).filter (fun g => g.priority == 1) =
        collisionSegments s ∧
      (buildSegments s).filter (fun g => g.priority == 2) =
        positionChangeSegments s ∧
      (buildSegments s).filter (fun g => g.priority == 3) =
        trackLimitsSegments s ∧
      (buildSegments s).filter (fun g => g.priority == 4) =
        yellowFlagSegments s := by
  have hc := collisionSegments_fields s
  have hp := positionChangeSegments_fields s
  have ht := trackLimitsSegments_fields s
  have hy := yellowFlagSegments_fields s
  refine ⟨?_, ?_, ?_, ?_⟩ <;> simp only [buildSegments, List.filter_append]
  · rw [List.filter_eq_self.mpr (fun g hg => by simp [(hc g hg).1]),
      List.filter_eq_nil_iff.mpr (fun g hg => by simp [(hp g hg).1]),
      List.filter_eq_nil_iff.mpr (fun g hg => by simp [(ht g hg).1]),
      List.filter_eq_nil_iff.mpr (fun g hg => by simp [(hy g hg).1])]
    simp
  · rw [List.filter_eq_nil_iff.mpr (fun g hg => by simp [(hc g hg).1]),
      List.filter_eq_self.mpr (fun g hg => by simp [(hp g hg).1]),
      List.filter_eq_nil_iff.mpr (fun g hg => by simp [(ht g hg).1]),
      List.filter_eq_nil_iff.mpr (fun g hg => by simp [(hy g hg).1])]
    simp
  · rw [List.filter_eq_nil_iff.mpr (fun g hg => by simp [(hc g hg).1]),
      List.filter_eq_nil_iff.mpr (fun g hg => by simp [(hp g hg).1]),
      List.filter_eq_self.mpr (fun g hg => by simp [(ht g hg).1]),
      List.filter_eq_nil_iff.mpr (fun g hg => by simp [(hy g hg).1])]
    simp
  · rw [List.filter_eq_nil_iff.mpr (fun g hg => by simp [(hc g hg).1]),
      List.filter_eq_nil_iff.mpr (fun g hg => by simp [(hp g hg).1]),
      List.filter_eq_nil_iff.mpr (fun g hg => by simp [(ht g hg).1]),
      List.filter_eq_self.mpr (fun g hg => by simp [(hy g hg).1])]
    simp

/-- C2: the ranked segment list assigns priority 1 exactly to the
collision subset of the incidents, 2 to the top five position changes
of the `min_change = 5` scan, 3 to all track-limits violations and 4 to
all yellow-flag messages; it is sorted ascending by priority with
detection order preserved inside each tier, and every collision segment
precedes every yellow-flag segment. -/
theorem segment_ranking (s : Session) :
    ((identifyCommentarySegments s).filter (fun g => g.priority == 1) =
      collisionSegments s) ∧
    ((identifyCommentarySegments s).filter (fun g => g.priority == 2) =
      positionChangeSegments s) ∧
    ((identifyCommentarySegments s).filter (fun g => g.priority == 3) =
      trackLimitsSegments s) ∧
    ((identifyCommentarySegments s).filter (fun g => g.priority == 4) =
      yellowFlagSegments s) ∧
    (identifyCommentarySegments s).Pairwise
      (fun a b => a.priority ≤ b.priority) ∧
    (∀ i j : Fin (identifyCommentarySegments s).length,
      ((identifyCommentarySegments s).get i).type = "collision" →
      ((identifyCommentarySegments s).get j).type = "yellow_flag" →
      (i : Nat) < (j : Nat)) := by
  have hstab : ∀ k : Int,
      (identifyCommentarySegments s).filter (fun g => g.priority == k) =
        (buildSegments s).filter (fun g => g.priority == k) := by
    intro k
    refine sortBy_filter_stable ?_ (buildSegments s)
    intro a b ha hb
    have ha' : a.priority = k := by simpa using ha
    have hb' : b.priority = k := by simpa using hb
    simp [priorityBefore, ha', hb']
  obtain ⟨h1, h2, h3, h4⟩ := buildSegments_priority_filter s
  have hpw : (identifyCommentarySegments s).Pairwise
      (fun a b => a.priority ≤ b.priority) := by
    have hs := @sortBy_pairwise _ priorityBefore
      (fun a b hab => by
        simp [priorityBefore] at hab ⊢
        omega)
      (fun a b c hba hcb => by
        simp [priorityBefore] at hba hcb ⊢
        omega)
      (buildSegments s)
    exact hs.imp (fun hab => by
      simp [priorityBefore] at hab
      omega)
  have htype : ∀ g ∈ identifyCommentarySegments s,
      (g.type = "collision" → g.priority = 1) ∧
      (g.type = "yellow_flag" → g.priority = 4) := by
    intro g hg
    have hb : g ∈ buildSegments s :=
      ((sortBy_perm priorityBefore (buildSegments s)).mem_iff).mp hg
    rcases List.mem_append.mp hb with hb1 | hy
    · rcases List.mem_append.mp hb1 with hb2 | ht
      · rcases List.mem_append.mp hb2 with hcm | hpm
        · obtain ⟨hpri, hty⟩ := collisionSegments_fields s g hcm
          exact ⟨fun _ => hpri,
            fun h => absurd (hty ▸ h) (by decide)⟩
        · obtain ⟨hpri, hty⟩ := positionChangeSegments_fields s g hpm
          exact ⟨fun h => absurd (hty ▸ h) (by decide),
            fun h => absurd (hty ▸ h) (by decide)⟩
      · obtain ⟨hpri, hty⟩ := trackLimitsSegments_fields s g ht
        exact ⟨fun h => absurd (hty ▸ h) (by decide),
          fun h => absurd (hty ▸ h) (by decide)⟩
    · obtain ⟨hpri, hty⟩ := yellowFlagSegments_fields s g hy
      exact ⟨fun h => absurd (hty ▸ h) (by decide), fun _ => hpri⟩
  refine ⟨(hstab 1).trans h1, (hstab 2).trans h2, (hstab 3).trans h3,
    (hstab 4).trans h4, hpw, ?_⟩
  intro i j hi hj
  have hmi : (identifyCommentarySegments s).get i ∈
      identifyCommentarySegments s := List.get_mem _ _ _
  have hmj : (identifyCommentarySegments s).get j ∈
      identifyCommentarySegments s := List.get_mem _ _ _
  have hpi : ((identifyCommentarySegments s).get i).priority = 1 :=
    (htype _ hmi).1 hi
  have hpj : ((identifyCommentarySegments s).get j).priority = 4 :=
    (htype _ hmj).2 hj
  by_contra hij
  push_neg at hij
  rcases Nat.lt_or_ge (j : Nat) (i : Nat) with hji | hji
  · have := (List.pairwise_iff_get.mp hpw) j i hji
    omega
  · have hije : (i : Nat) = (j : Nat) := by omega
    have hije2 : i = j := Fin.ext hije
    rw [hije2, hj] at hi
    exact absurd hi (by decide)

/-- Witness for C2: in the concrete session holding one collision and
one yellow flag, the collision segment (index 0) precedes the
yellow-flag segment (index 1). -/
theorem segment_ranking_witness :
    ((identifyCommentarySegments rankSession).get
        ⟨0, by decide⟩).type = "collision" ∧
    ((identifyCommentarySegments rankSession).get
        ⟨1, by decide⟩).type = "yellow_flag" ∧
    (0 : Nat) < 1 :=
  ⟨by decide, by decide,
    (segment_ranking rankSession).2.2.2.2.2 ⟨0, by decide⟩ ⟨1, by decide⟩
      (by decide) (by decide)⟩

theorem mem_scanDriverChanges {m : Int} {dl : List LapRecord}
    {rec : PositionChange} :
    rec ∈ scanDriverChanges m dl ↔
      ∃ pr ∈ dl.zip dl.tail, ∃ pp cp : Int,
        pr.1.position = some pp ∧ pr.2.position = some cp ∧
        pp ≠ cp ∧ m ≤ |pp - cp| ∧ rec = mkPositionChange pr.1 pr.2 pp cp := by
  unfold scanDriverChanges
  rw [List.mem_filterMap]
  constructor
  · rintro ⟨pr, hpr, hf⟩
    refine ⟨pr, hpr, ?_⟩
    cases h1 : pr.1.position with
    | none => rw [h1] at hf; simp at hf
    | some pp =>
      cases h2 : pr.2.position with
      | none => rw [h1, h2] at hf; simp at hf
      | some cp =>
        rw [h1, h2] at hf
        have hf2 : (if pp ≠ cp ∧ m ≤ |pp - cp| then
            some (mkPositionChange pr.1 pr.2 pp cp) else none) = some rec := hf
        by_cases hcond : pp ≠ cp ∧ m ≤ |pp - cp|
        · rw [if_pos hcond] at hf2
          exact ⟨pp, cp, rfl, rfl, hcond.1, hcond.2,
            (Option.some_inj.mp hf2).symm⟩
        · rw [if_neg hcond] at hf2
          cases hf2
  · rintro ⟨pr, hpr, pp, cp, h1, h2, hne, hm, rfl⟩
    refine ⟨pr, hpr, ?_⟩
    rw [h1, h2]
    show (if pp ≠ cp ∧ m ≤ |pp - cp| then
        some (mkPositionChange pr.1 pr.2 pp cp) else none) =
      some (mkPositionChange pr.1 pr.2 pp cp)
    rw [if_pos ⟨hne, hm⟩]

/-- C1: every record the position-change scanner reports with parameter
m arises from a consecutive pair of the driver chronological lap
sequence, its signed change equals previous minus current position with
absolute value at least m, the list is sorted descending by absolute
change with ties keeping the pre-sort per-driver chronological encounter
order (stable sort), and the lap 9 to lap 10 example (positions 5 to 12,
min change 5) yields exactly the record with change -7. -/
theorem position_change_scan (lapData : List LapRecord) (m : Int) :
    (∀ rec ∈ analyzePositionChanges lapData m,
      m ≤ |rec.change| ∧ rec.change = rec.fromPosition - rec.toPosition ∧
      ∃ pr ∈ (sortByLapNumber (lapData.filter
            (fun r => r.driver == rec.driver))).zip
          (sortByLapNumber (lapData.filter
            (fun r => r.driver == rec.driver))).tail,
        pr.1.position = some rec.fromPosition ∧
        pr.2.position = some rec.toPosition ∧ pr.2.lapNumber = rec.lap) ∧
    (analyzePositionChanges lapData m).Pairwise
      (fun a b => |b.change| ≤ |a.change|) ∧
    (∀ k : Int,
      (analyzePositionChanges lapData m).filter (fun c => |c.change| == k) =
        (rawPositionChanges lapData m).filter (fun c => |c.change| == k)) ∧
    analyzePositionChanges perLaps 5 = [perChange] := by
  refine ⟨?_, ?_, ?_, by decide⟩
  · intro rec hrec
    have hraw : rec ∈ rawPositionChanges lapData m :=
      ((sortBy_perm changeBefore (rawPositionChanges lapData m)).mem_iff).mp
        hrec
    obtain ⟨d, hd, hscan⟩ := List.mem_flatMap.mp hraw
    obtain ⟨pr, hpr, pp, cp, h1, h2, hne, hm, hrec'⟩ :=
      mem_scanDriverChanges.mp hscan
    subst hrec'
    have hdriver : pr.2.driver = d := by
      obtain ⟨prev, curr⟩ := pr
      have hmem2 : curr ∈ sortByLapNumber
          (lapData.filter (fun r => r.driver == d)) :=
        List.mem_of_mem_tail (List.of_mem_zip hpr).2
      have hmem3 : curr ∈ lapData.filter (fun r => r.driver == d) :=
        (sortBy_perm _ _).mem_iff.mp hmem2
      have := (List.mem_filter.mp hmem3).2
      simpa using this
    refine ⟨hm, rfl, pr, ?_, h1, h2, rfl⟩
    simp only [mkPositionChange]
    rw [hdriver]
    exact hpr
  · have hs := @sortBy_pairwise _ changeBefore
      (fun a b hab => by
        simp only [changeBefore, decide_eq_true_eq] at hab
        simp only [changeBefore, decide_eq_false_iff_not]
        omega)
      (fun a b c hba hcb => by
        simp only [changeBefore, decide_eq_false_iff_not] at hba hcb ⊢
        omega)
      (rawPositionChanges lapData m)
    exact hs.imp (fun hab => by
      simp only [changeBefore, decide_eq_false_iff_not] at hab
      omega)
  · intro k
    refine sortBy_filter_stable ?_ (rawPositionChanges lapData m)
    intro a b ha hb
    have ha' : |a.change| = k := by simpa using ha
    have hb' : |b.change| = k := by simpa using hb
    simp [changeBefore, ha', hb']

/-- Witness for C1: the PER example record is reported and satisfies the
minimum-change bound. -/
theorem position_change_scan_witness :
    perChange ∈ analyzePositionChanges perLaps 5 ∧ 5 ≤ |perChange.change| :=
  ⟨by decide, ((position_change_scan perLaps 5).1 perChange (by decide)).1⟩

theorem lapTimeDelta_none {prevLap currLap : LapRecord}
    (h : prevLap.lapTime = none ∨ currLap.lapTime = none) :
    lapTimeDelta prevLap currLap = (none, []) := by
  unfold lapTimeDelta
  cases hp : prevLap.lapTime with
  | none => rfl
  | some p =>
    cases hc : currLap.lapTime with
    | none => rfl
    | some c =>
      rcases h with h | h
      · rw [hp] at h; cases h
      · rw [hc] at h; cases h

theorem lapTimeDelta_snd_shape (prevLap currLap : LapRecord) :
    ∀ a ∈ (lapTimeDelta prevLap currLap).2, ∃ d,
      a = CompareAnomaly.lapTimeChange d := by
  intro a ha
  unfold lapTimeDelta at ha
  cases hp : prevLap.lapTime with
  | none => rw [hp] at ha; simp at ha
  | some p =>
    cases hc : currLap.lapTime with
    | none => rw [hp, hc] at ha; simp at ha
    | some c =>
      rw [hp, hc] at ha
      have ha2 : a ∈ (if |c - p| > 2 then
          [CompareAnomaly.lapTimeChange (c - p)] else []) := ha
      by_cases hgt : |c - p| > 2
      · rw [if_pos hgt] at ha2
        exact ⟨c - p, List.mem_singleton.mp ha2⟩
      · rw [if_neg hgt] at ha2
        simp at ha2

theorem mem_deltaEntry {g f : String} {d : Rat} {p c : Option Rat} :
    (g, d) ∈ deltaEntry f p c ↔
      g = f ∧ ∃ pv cv, p = some pv ∧ c = some cv ∧ d = cv - pv := by
  unfold deltaEntry
  cases p with
  | none => simp
  | some pv =>
    cases c with
    | none => simp
    | some cv =>
      constructor
      · intro h
        have h2 := List.mem_singleton.mp h
        exact ⟨congrArg Prod.fst h2, pv, cv, rfl, rfl, congrArg Prod.snd h2⟩
      · rintro ⟨rfl, pv2, cv2, h1, h2, rfl⟩
        obtain rfl := Option.some_inj.mp h1
        obtain rfl := Option.some_inj.mp h2
        exact List.mem_singleton_self _

theorem mem_sectorDeltas {prevLap currLap : LapRecord} {f : String}
    {d : Rat} :
    (f, d) ∈ sectorDeltas prevLap currLap ↔
      ((f = "Sector1Time" ∧ ∃ pv cv, prevLap.sector1Time = some pv ∧
          currLap.sector1Time = some cv ∧ d = cv - pv) ∨
        (f = "Sector2Time" ∧ ∃ pv cv, prevLap.sector2Time = some pv ∧
          currLap.sector2Time = some cv ∧ d = cv - pv) ∨
        (f = "Sector3Time" ∧ ∃ pv cv, prevLap.sector3Time = some pv ∧
          currLap.sector3Time = some cv ∧ d = cv - pv)) := by
  unfold sectorDeltas
  simp only [List.mem_append, mem_deltaEntry]
  exact or_assoc

theorem sector_anomaly_field {prevLap currLap : LapRecord} {f : String}
    {d : Rat}
    (h : CompareAnomaly.sectorChange f d ∈
      (compareLapTelemetry prevLap currLap).anomalies) :
    (f, d) ∈ sectorDeltas prevLap currLap := by
  have h2 : CompareAnomaly.sectorChange f d ∈
      (lapTimeDelta prevLap currLap).2 ++
      ((speedDeltas prevLap currLap).filter (fun pc => |pc.2| > 15)).map
        (fun pc => CompareAnomaly.speedChange pc.1 pc.2) ++
      ((sectorDeltas prevLap currLap).filter
          (fun pc => |pc.2| > (1 : Rat) / 2)).map
        (fun pc => CompareAnomaly.sectorChange pc.1 pc.2) := h
  rcases List.mem_append.mp h2 with h3 | h3
  · rcases List.mem_append.mp h3 with h4 | h4
    · obtain ⟨d2, hd2⟩ := lapTimeDelta_snd_shape prevLap currLap _ h4
      simp at hd2
    · obtain ⟨pc, _, heq⟩ := List.mem_map.mp h4
      simp at heq
  · obtain ⟨pc, hpc, heq⟩ := List.mem_map.mp h3
    obtain ⟨a, b⟩ := pc
    injection heq with h5 h6
    rw [← h5, ← h6]
    exact List.mem_of_mem_filter hpc

theorem lapTime_anomaly_only_from_lapTime {prevLap currLap : LapRecord}
    {d : Rat}
    (h : CompareAnomaly.lapTimeChange d ∈
      (compareLapTelemetry prevLap currLap).anomalies) :
    CompareAnomaly.lapTimeChange d ∈ (lapTimeDelta prevLap currLap).2 := by
  have h2 : CompareAnomaly.lapTimeChange d ∈
      (lapTimeDelta prevLap currLap).2 ++
      ((speedDeltas prevLap currLap).filter (fun pc => |pc.2| > 15)).map
        (fun pc => CompareAnomaly.speedChange pc.1 pc.2) ++
      ((sectorDeltas prevLap currLap).filter
          (fun pc => |pc.2| > (1 : Rat) / 2)).map
        (fun pc => CompareAnomaly.sectorChange pc.1 pc.2) := h
  rcases List.mem_append.mp h2 with h3 | h3
  · rcases List.mem_append.mp h3 with h4 | h4
    · exact h4
    · obtain ⟨pc, _, heq⟩ := List.mem_map.mp h4
      simp at heq
  · obtain ⟨pc, _, heq⟩ := List.mem_map.mp h3
    simp at heq

theorem map_flatMap_aux {α β γ : Type} (g : β → γ) (f : α → List β)
    (l : List α) :
    (l.flatMap f).map g = l.flatMap (fun a => (f a).map g) := by
  induction l with
  | nil => rfl
  | cons x t ih => simp [List.flatMap_cons, List.map_append, ih]

theorem scanEntry_erase (m : Int) (prevLap currLap : LapRecord) :
    (match (eraseDurations prevLap).position,
        (eraseDurations currLap).position with
      | some prevPos, some currPos =>
        if prevPos ≠ currPos ∧ m ≤ |prevPos - currPos| then
          some (mkPositionChange (eraseDurations prevLap)
            (eraseDurations currLap) prevPos currPos)
        else none
      | _, _ => none).map coreOf =
    (match prevLap.position, currLap.position with
      | some prevPos, some currPos =>
        if prevPos ≠ currPos ∧ m ≤ |prevPos - currPos| then
          some (mkPositionChange prevLap currLap prevPos currPos)
        else none
      | _, _ => none).map coreOf := by
  have hp : (eraseDurations prevLap).position = prevLap.position := rfl
  have hc : (eraseDurations currLap).position = currLap.position := rfl
  rw [hp, hc]
  cases h1 : prevLap.position with
  | none => rfl
  | some pp =>
    cases h2 : currLap.position with
    | none => rfl
    | some cp =>
      show (Option.map coreOf
          (if pp ≠ cp ∧ m ≤ |pp - cp| then
            some (mkPositionChange (eraseDurations prevLap)
              (eraseDurations currLap) pp cp)
          else none)) =
        Option.map coreOf
          (if pp ≠ cp ∧ m ≤ |pp - cp| then
            some (mkPositionChange prevLap currLap pp cp)
          else none)
      by_cases hcond : pp ≠ cp ∧ m ≤ |pp - cp|
      · rw [if_pos hcond, if_pos hcond]
        rfl
      · rw [if_neg hcond, if_neg hcond]

theorem scan_map_erase (m : Int) (dl : List LapRecord) :
    (scanDriverChanges m (dl.map eraseDurations)).map coreOf =
      (scanDriverChanges m dl).map coreOf := by
  unfold scanDriverChanges
  have htail : (dl.map eraseDurations).tail = dl.tail.map eraseDurations := by
    cases dl <;> rfl
  rw [htail, List.zip_map, List.filterMap_map, List.map_filterMap,
    List.map_filterMap]
  congr 1
  funext pr
  obtain ⟨prevLap, currLap⟩ := pr
  exact scanEntry_erase m prevLap currLap

theorem raw_map_erase (lapData : List LapRecord) (m : Int) :
    (rawPositionChanges (lapData.map eraseDurations) m).map coreOf =
      (rawPositionChanges lapData m).map coreOf := by
  unfold rawPositionChanges
  have hdrv : (lapData.map eraseDurations).map (fun r => r.driver) =
      lapData.map (fun r => r.driver) := by
    rw [List.map_map]
    rfl
  rw [hdrv, map_flatMap_aux, map_flatMap_aux]
  refine congrArg _ (funext fun d => ?_)
  have hfil : (lapData.map eraseDurations).filter
      (fun r => r.driver == d) =
      (lapData.filter (fun r => r.driver == d)).map eraseDurations := by
    rw [List.filter_map]
    rfl
  rw [hfil]
  have hsort : sortByLapNumber
      ((lapData.filter (fun r => r.driver == d)).map eraseDurations) =
      (sortByLapNumber (lapData.filter (fun r => r.driver == d))).map
        eraseDurations := by
    unfold sortByLapNumber
    exact (@sortBy_map _ _ eraseDurations
      (fun a b => decide (a.lapNumber < b.lapNumber))
      (fun a b => decide (a.lapNumber < b.lapNumber))
      (fun a b => rfl) _).symm
  rw [hsort, scan_map_erase]

/-- C9: a lap-time or sector-time value that is missing or fails to
parse is silently excluded from the per-change telemetry comparison —
its delta is absent and no anomaly dependent on it is emitted — while
the containing PositionChange record is still produced: erasing every
duration field of the input changes no reported record core (driver,
lap, from/to positions, signed change) of the scan. -/
theorem parse_failure_is_local :
    (∀ prevLap currLap : LapRecord,
      (prevLap.lapTime = none ∨ currLap.lapTime = none) →
        (compareLapTelemetry prevLap currLap).lapTimeChange = none ∧
        ∀ d, CompareAnomaly.lapTimeChange d ∉
          (compareLapTelemetry prevLap currLap).anomalies) ∧
    (∀ prevLap currLap : LapRecord,
      (prevLap.sector1Time = none ∨ currLap.sector1Time = none) →
        (∀ d, ("Sector1Time", d) ∉
          (compareLapTelemetry prevLap currLap).sectorChanges) ∧
        ∀ d, CompareAnomaly.sectorChange "Sector1Time" d ∉
          (compareLapTelemetry prevLap currLap).anomalies) ∧
    (∀ prevLap currLap : LapRecord,
      (prevLap.sector2Time = none ∨ currLap.sector2Time = none) →
        (∀ d, ("Sector2Time", d) ∉
          (compareLapTelemetry prevLap currLap).sectorChanges) ∧
        ∀ d, CompareAnomaly.sectorChange "Sector2Time" d ∉
          (compareLapTelemetry prevLap currLap).anomalies) ∧
    (∀ prevLap currLap : LapRecord,
      (prevLap.sector3Time = none ∨ currLap.sector3Time = none) →
        (∀ d, ("Sector3Time", d) ∉
          (compareLapTelemetry prevLap currLap).sectorChanges) ∧
        ∀ d, CompareAnomaly.sectorChange "Sector3Time" d ∉
          (compareLapTelemetry prevLap currLap).anomalies) ∧
    (∀ (lapData : List LapRecord) (m : Int),
      (analyzePositionChanges (lapData.map eraseDurations) m).map coreOf =
        (analyzePositionChanges lapData m).map coreOf) := by
  have hs1 : ∀ prevLap currLap : LapRecord,
      (prevLap.sector1Time = none ∨ currLap.sector1Time = none) →
      ∀ d, ("Sector1Time", d) ∉
        (compareLapTelemetry prevLap currLap).sectorChanges := by
    intro prevLap currLap h d hd
    rcases mem_sectorDeltas.mp hd with ⟨_, pv, cv, hpv, hcv, _⟩ |
      ⟨hf, _⟩ | ⟨hf, _⟩
    · rcases h with h | h
      · rw [h] at hpv; cases hpv
      · rw [h] at hcv; cases hcv
    · exact absurd hf (by decide)
    · exact absurd hf (by decide)
  have hs2 : ∀ prevLap currLap : LapRecord,
      (prevLap.sector2Time = none ∨ currLap.sector2Time = none) →
      ∀ d, ("Sector2Time", d) ∉
        (compareLapTelemetry prevLap currLap).sectorChanges := by
    intro prevLap currLap h d hd
    rcases mem_sectorDeltas.mp hd with ⟨hf, _⟩ |
      ⟨_, pv, cv, hpv, hcv, _⟩ | ⟨hf, _⟩
    · exact absurd hf (by decide)
    · rcases h with h | h
      · rw [h] at hpv; cases hpv
      · rw [h] at hcv; cases hcv
    · exact absurd hf (by decide)
  have hs3 : ∀ prevLap currLap : LapRecord,
      (prevLap.sector3Time = none ∨ currLap.sector3Time = none) →
      ∀ d, ("Sector3Time", d) ∉
        (compareLapTelemetry prevLap currLap).sectorChanges := by
    intro prevLap currLap h d hd
    rcases mem_sectorDeltas.mp hd with ⟨hf, _⟩ | ⟨hf, _⟩ |
      ⟨_, pv, cv, hpv, hcv, _⟩
    · exact absurd hf (by decide)
    · exact absurd hf (by decide)
    · rcases h with h | h
      · rw [h] at hpv; cases hpv
      · rw [h] at hcv; cases hcv
  refine ⟨?_, ?_, ?_, ?_, ?_⟩
  · intro prevLap currLap h
    constructor
    · show (lapTimeDelta prevLap currLap).1 = none
      rw [lapTimeDelta_none h]
    · intro d hd
      have h2 := lapTime_anomaly_only_from_lapTime hd
      rw [lapTimeDelta_none h] at h2
      simp at h2
  · intro prevLap currLap h
    exact ⟨hs1 prevLap currLap h,
      fun d hd => hs1 prevLap currLap h d (sector_anomaly_field hd)⟩
  · intro prevLap currLap h
    exact ⟨hs2 prevLap currLap h,
      fun d hd => hs2 prevLap currLap h d (sector_anomaly_field hd)⟩
  · intro prevLap currLap h
    exact ⟨hs3 prevLap currLap h,
      fun d hd => hs3 prevLap currLap h d (sector_anomaly_field hd)⟩
  · intro lapData m
    unfold analyzePositionChanges
    rw [@sortBy_map _ _ coreOf changeBefore coreBefore
        (fun a b => rfl) (rawPositionChanges (lapData.map eraseDurations) m),
      @sortBy_map _ _ coreOf changeBefore coreBefore
        (fun a b => rfl) (rawPositionChanges lapData m),
      raw_map_erase]

/-- Witness for C9: a comparison whose lap-time durations are missing
still yields a comparison record, with the lap-time delta omitted. -/
theorem parse_failure_is_local_witness :
    (compareLapTelemetry (mkLap "PER" 9 (some 5) false none)
      (mkLap "PER" 10 (some 12) false none)).lapTimeChange = none :=
  (parse_failure_is_local.1 (mkLap "PER" 9 (some 5) false none)
    (mkLap "PER" 10 (some 12) false none) (Or.inl rfl)).1
